import Mathlib

/-!
Verification development for the SDHCI host controller driver
(`src/devices/block/drivers/sdhci/sdhci.cc`).

The driver's command/data engine is shallowly embedded: machine integers
are `Nat` with explicit `% 2^w` where overflow matters, register I/O is
made explicit through environment records and emitted effect lists, and
the interrupt-thread dispatch becomes a step function over the driver's
slot state.  Register-layout headers (`sdhci-reg.h`, `sdhci.h`) and the
sdmmc/zircon headers are not part of the source tree; the constants and
record shapes taken from them are modelled from the specification and
marked as such.
-/

namespace Sdhci

/-! ## Status codes

Modelled from the spec: zircon status codes (header not in tree).  Only
distinctness and the zero/nonzero split matter to the driver logic. -/

def ZX_OK : Int := 0
def ZX_ERR_INTERNAL : Int := -1
def ZX_ERR_NOT_SUPPORTED : Int := -2
def ZX_ERR_NO_MEMORY : Int := -4
def ZX_ERR_INVALID_ARGS : Int := -10
def ZX_ERR_BAD_HANDLE : Int := -11
def ZX_ERR_BAD_STATE : Int := -20
def ZX_ERR_TIMED_OUT : Int := -21
def ZX_ERR_SHOULD_WAIT : Int := -22
def ZX_ERR_CANCELED : Int := -23
def ZX_ERR_IO : Int := -40

/-! ## Request flag bits

Modelled from the spec: the sdmmc command-flag bit set (header not in
tree).  Each flag is a distinct bit of the 32-bit `cmd_flags` word. -/

def SDMMC_RESP_LEN_EMPTY : Nat := 2 ^ 0
def SDMMC_RESP_LEN_136 : Nat := 2 ^ 1
def SDMMC_RESP_LEN_48 : Nat := 2 ^ 2
def SDMMC_RESP_LEN_48B : Nat := 2 ^ 3
def SDMMC_RESP_CRC_CHECK : Nat := 2 ^ 5
def SDMMC_RESP_CMD_IDX_CHECK : Nat := 2 ^ 6
def SDMMC_RESP_DATA_PRESENT : Nat := 2 ^ 7
def SDMMC_CMD_TYPE_NORMAL : Nat := 2 ^ 8
def SDMMC_CMD_TYPE_SUSPEND : Nat := 2 ^ 9
def SDMMC_CMD_TYPE_RESUME : Nat := 2 ^ 10
def SDMMC_CMD_TYPE_ABORT : Nat := 2 ^ 11
def SDMMC_CMD_DMA_EN : Nat := 2 ^ 12
def SDMMC_CMD_BLKCNT_EN : Nat := 2 ^ 13
def SDMMC_CMD_AUTO12 : Nat := 2 ^ 14
def SDMMC_CMD_AUTO23 : Nat := 2 ^ 15
def SDMMC_CMD_READ : Nat := 2 ^ 16
def SDMMC_CMD_MULTI_BLK : Nat := 2 ^ 17

/-- Modelled from the spec: tuning-pattern command indices (MMC CMD21 and
SD CMD19, sdmmc header not in tree). -/
def MMC_SEND_TUNING_BLOCK : Nat := 21

/-- Modelled from the spec: SD tuning-pattern command index. -/
def SD_SEND_TUNING_BLOCK : Nat := 19

/-! ## Quirk bits

Modelled from the spec: the per-instance quirk bitset (banjo protocol
header not in tree); distinct bits. -/

def SDHCI_QUIRK_STRIP_RESPONSE_CRC : Nat := 2 ^ 0
def SDHCI_QUIRK_STRIP_RESPONSE_CRC_PRESERVE_ORDER : Nat := 2 ^ 1
def SDHCI_QUIRK_NO_DMA : Nat := 2 ^ 2
def SDHCI_QUIRK_USE_DMA_BOUNDARY_ALIGNMENT : Nat := 2 ^ 3

/-! ## Hardware limits -/

/-- `kMaxTuningCount` (sdhci.cc line 32). -/
def kMaxTuningCount : Nat := 40

/-- Modelled from the spec: maximum ADMA2 descriptor segment length
(`kMaxDescriptorLength` in sdhci.h, not in tree); a 16-bit length field,
with 0 encoding the full 65536. -/
def kMaxDescriptorLength : Nat := 65536

/-- Modelled from the spec: hardware descriptor chain capacity
(`kDmaDescCount` in sdhci.h, not in tree). -/
def kDmaDescCount : Nat := 512

/-- Modelled from the spec: page-count capacity of a pinned transfer
(`SDMMC_PAGES_COUNT`, sdmmc header not in tree). -/
def SDMMC_PAGES_COUNT : Nat := 512

/-- Modelled from the spec: `zx_system_get_page_size()` on the supported
targets. -/
def kPageSize : Nat := 4096

/-- Modelled from the spec: SDHCv3 has a 10-bit clock divider, so the
maximum value of the frequency-select field (`ClockControl.kMaxFrequencySelect`
in sdhci-reg.h, not in tree) is `0x3ff`. -/
def kMaxFrequencySelect : Nat := 0x3ff

/-- `SdmmcCmdRspBusy` (sdhci.cc line 42): the request has a 48-bit-with-busy
response. -/
def sdmmcCmdRspBusy (cmdFlags : Nat) : Bool := cmdFlags &&& SDMMC_RESP_LEN_48B ≠ 0

/-- `SdmmcCmdHasData` (sdhci.cc line 44): the request carries a data phase. -/
def sdmmcCmdHasData (cmdFlags : Nat) : Bool := cmdFlags &&& SDMMC_RESP_DATA_PRESENT ≠ 0

/-! ## Clock divider (sdhci.cc lines 48-61)

`base_clock` and `target_rate` are `uint32_t`; `result` is `uint32_t` and
is truncated to `uint16_t` before the `std::min` with
`kMaxFrequencySelect`.  The embedding keeps both the 32-bit wrap of the
intermediate products and the 16-bit truncation of the cast. -/

/-- `GetClockDividerValue` (sdhci.cc lines 48-61).  `2 * target_rate` and
`result * target_rate * 2` are 32-bit products; `static_cast<uint16_t>(result)`
truncates to 16 bits before the cap is applied.  (For `2 * target_rate = 0`
mod `2^32` the C++ division is undefined; `Nat` division by zero yields 0
here, and all theorems below restrict to targets below `2^31` where the
two agree.) -/
def getClockDividerValue (baseClock targetRate : Nat) : Nat :=
  if targetRate ≥ baseClock then
    0
  else
    let result := baseClock / ((2 * targetRate) % 2 ^ 32)
    let result := if result * targetRate * 2 % 2 ^ 32 < baseClock then result + 1 else result
    min kMaxFrequencySelect (result % 2 ^ 16)

/-- Written from the spec's words, for comparison with
`getClockDividerValue`: 0 when the target is at least the base clock,
otherwise the ceiling of `base / (2 * target)` capped at the maximum
frequency-select field value. -/
def clockDividerSpec (baseClock targetRate : Nat) : Nat :=
  if targetRate ≥ baseClock then 0
  else min kMaxFrequencySelect ((baseClock + 2 * targetRate - 1) / (2 * targetRate))

/-! ## Response capture (sdhci.cc lines 199-240) -/

/-- Four 32-bit words: either the `Response` register file `R0..R3` or the
request's stored `response[0..3]`. -/
structure Resp4 where
  r0 : Nat
  r1 : Nat
  r2 : Nat
  r3 : Nat
deriving DecidableEq, Repr

/-- The response-capture step of `CmdStageCompleteLocked` (sdhci.cc lines
212-232): given the quirk set, the request's flags, the previously stored
response words and the raw response register words, the stored words after
the command-complete interrupt.  All shifts are 32-bit (`uint32_t`). -/
def captureResponse (quirks cmdFlags : Nat) (old raw : Resp4) : Resp4 :=
  if cmdFlags &&& SDMMC_RESP_LEN_136 ≠ 0 then
    if quirks &&& SDHCI_QUIRK_STRIP_RESPONSE_CRC ≠ 0 then
      { r0 := ((raw.r3 <<< 8) % 2 ^ 32) ||| ((raw.r2 >>> 24) &&& 0xff)
        r1 := ((raw.r2 <<< 8) % 2 ^ 32) ||| ((raw.r1 >>> 24) &&& 0xff)
        r2 := ((raw.r1 <<< 8) % 2 ^ 32) ||| ((raw.r0 >>> 24) &&& 0xff)
        r3 := (raw.r0 <<< 8) % 2 ^ 32 }
    else if quirks &&& SDHCI_QUIRK_STRIP_RESPONSE_CRC_PRESERVE_ORDER ≠ 0 then
      { r0 := (raw.r0 <<< 8) % 2 ^ 32
        r1 := ((raw.r1 <<< 8) % 2 ^ 32) ||| ((raw.r0 >>> 24) &&& 0xff)
        r2 := ((raw.r2 <<< 8) % 2 ^ 32) ||| ((raw.r1 >>> 24) &&& 0xff)
        r3 := ((raw.r3 <<< 8) % 2 ^ 32) ||| ((raw.r2 >>> 24) &&& 0xff) }
    else
      { r0 := raw.r0, r1 := raw.r1, r2 := raw.r2, r3 := raw.r3 }
  else if cmdFlags &&& (SDMMC_RESP_LEN_48 ||| SDMMC_RESP_LEN_48B) ≠ 0 then
    { old with r0 := raw.r0 }
  else
    old

/-! ## The pre-issue inhibit mask (sdhci.cc lines 552-559) -/

/-- The two inhibit bits of the `PresentState` register that
`StartRequestLocked` waits on before arming the command. -/
structure InhibitMask where
  cmd : Bool
  dat : Bool
deriving DecidableEq, Repr

/-- The inhibit mask built by `StartRequestLocked` (sdhci.cc lines
552-559): command-inhibit always; the source adds data-inhibit when the
request has a busy (48-bit-with-busy) response AND is an abort-class
command. -/
def startInhibitMask (cmdFlags : Nat) : InhibitMask :=
  let mask : InhibitMask := { cmd := true, dat := false }
  if cmdFlags &&& SDMMC_RESP_LEN_48B ≠ 0 ∧ cmdFlags &&& SDMMC_CMD_TYPE_ABORT ≠ 0 then
    { mask with dat := true }
  else
    mask

/-! ## DMA descriptor builder (sdhci.cc lines 410-531)

The builder walks the physical extent of the pinned pages as consecutive
address/length runs.  `phys_iter` (lib/ddk/phys-iter, not in tree) is
modelled from the spec: it yields the transfer's physical extent as a
sequence of runs, each of positive length, returning length 0 only at the
end of the iteration.  The walk itself (sdhci.cc lines 440-499) is
embedded faithfully, including the boundary-alignment split, the
per-descriptor limit checks, and the 16-bit truncation of the stored
length field. -/

/-- ADMA2 descriptor attribute bits (`Adma2DescriptorAttributes`,
sdhci-reg.h not in tree; modelled from the spec's layout
`{valid, end, type}`). -/
structure Adma2Attr where
  valid : Bool
  endBit : Bool
  typ : Nat
deriving DecidableEq, Repr

/-- Modelled from the spec: the ADMA2 "data" descriptor type code. -/
def kTypeData : Nat := 2

/-- The attribute word written for every emitted descriptor
(sdhci.cc lines 492-495): valid, type data, end clear. -/
def attrData : Adma2Attr := { valid := true, endBit := false, typ := kTypeData }

/-- One emitted descriptor: the address field (already masked to the
active addressing width), the raw 16-bit length field
(`static_cast<uint16_t>(length)`, sdhci.cc line 491), and the attribute
bits. -/
structure AdmaDescriptor where
  address : Nat
  length16 : Nat
  attr : Adma2Attr
deriving DecidableEq, Repr

/-- The transfer length a descriptor denotes: ADMA2 interprets a zero
length field as 65536. -/
def interpLen (d : AdmaDescriptor) : Nat :=
  if d.length16 = 0 then 65536 else d.length16

/-- The descriptor-emission loop of `BuildDmaDescriptor` (sdhci.cc lines
440-499).  `runs` is the remaining output of the physical-extent iterator;
`paddr`/`length` is the run carried over from a boundary split (length 0
means "fetch the next run"); `count` is the number of descriptors emitted
so far.  Errors are the source's `ZX_ERR_NOT_SUPPORTED` rejections (chunk
too long, too many chunks, address exceeding the active addressing
width). -/
def descLoop (quirkBoundary : Bool) (alignment maxLen maxCount addrMask : Nat) :
    List (Nat × Nat) → Nat → Nat → Nat → Except Int (List AdmaDescriptor)
  | runs, paddr, length, count =>
    if hl : length = 0 then
      -- length == 0: pull the next run from the iterator.
      match runs with
      | [] => .ok []
      | (p, l) :: rest =>
        if l = 0 then .ok []  -- the iterator signals the end with length 0
        else descLoop quirkBoundary alignment maxLen maxCount addrMask rest p l count
    else if length > maxLen then
      .error ZX_ERR_NOT_SUPPORTED
    else if count + 1 > maxCount then
      .error ZX_ERR_NOT_SUPPORTED
    else if paddr &&& addrMask ≠ paddr then
      .error ZX_ERR_NOT_SUPPORTED
    else
      -- `fbl::round_down(paddr, al) = al * (paddr / al)`; the run crosses an
      -- alignment boundary when the rounded-down start and end differ.
      if hs : quirkBoundary ∧
          alignment * (paddr / alignment) ≠ alignment * ((paddr + length - 1) / alignment) then
        -- Crossing a boundary, split the buffer in two: the first piece is
        -- `first_length = aligned_start + alignment - paddr`.
        (descLoop quirkBoundary alignment maxLen maxCount addrMask runs
            (paddr + (alignment * (paddr / alignment) + alignment - paddr))
            (length - (alignment * (paddr / alignment) + alignment - paddr)) (count + 1)).map
          (fun ds =>
            { address := paddr &&& addrMask,
              length16 := (alignment * (paddr / alignment) + alignment - paddr) % 2 ^ 16,
              attr := attrData } :: ds)
      else
        (descLoop quirkBoundary alignment maxLen maxCount addrMask runs 0 0 (count + 1)).map
          (fun ds =>
            { address := paddr &&& addrMask, length16 := length % 2 ^ 16,
              attr := attrData } :: ds)
termination_by runs _ length _ => (runs.length, length)
decreasing_by
  · exact Prod.Lex.left _ _ (by simp only [List.length_cons]; omega)
  · refine Prod.Lex.right _ ?_
    have halign : 0 < alignment := by
      rcases Nat.eq_zero_or_pos alignment with h0 | h0
      · exact absurd (by simp [h0]) hs.2
      · exact h0
    have hmod := Nat.mod_lt paddr halign
    have hdm := Nat.div_add_mod paddr alignment
    omega
  · exact Prod.Lex.right _ (by omega)

/-- Marks the final descriptor's end attribute (sdhci.cc lines 449-453). -/
def setEndOnLast : List AdmaDescriptor → List AdmaDescriptor
  | [] => []
  | [d] => [{ d with attr := { d.attr with endBit := true } }]
  | d :: ds => d :: setEndOnLast ds

/-- The descriptor-chain construction of `BuildDmaDescriptor` (sdhci.cc
lines 437-499): run the emission loop over the iterator's runs; an empty
chain is rejected (`sdhci: empty descriptor list!`), otherwise the last
descriptor gets the end attribute. -/
def buildDescriptorChain (quirkBoundary : Bool) (alignment maxLen maxCount addrMask : Nat)
    (runs : List (Nat × Nat)) : Except Int (List AdmaDescriptor) :=
  match descLoop quirkBoundary alignment maxLen maxCount addrMask runs 0 0 0 with
  | .error e => .error e
  | .ok [] => .error ZX_ERR_NOT_SUPPORTED
  | .ok ds => .ok (setEndOnLast ds)

/-- The byte addresses `[a, a + l)` of an address/length pair. -/
def addrRange (a l : Nat) : List Nat := (List.range l).map (a + ·)

/-- The physical extent denoted by a list of runs, in order. -/
def runsExtent (runs : List (Nat × Nat)) : List Nat :=
  (runs.map fun r => addrRange r.1 r.2).flatten

/-- The physical extent covered by a descriptor chain, in order, with the
ADMA2 interpretation of the length field. -/
def chainExtent (ds : List AdmaDescriptor) : List Nat :=
  (ds.map fun d => addrRange d.address (interpLen d)).flatten

/-! ## Requests and driver state -/

/-- The fields of `sdmmc_req_t` the engine reads or writes.  `blockcount`
and `blocksize` are read as `uint16_t` (sdhci.cc lines 535-536); `status`
is the terminal status slot written by `CompleteRequestLocked`; `pmtValid`
models `req->pmt != ZX_HANDLE_INVALID`. -/
structure Req where
  cmd_idx : Nat
  cmd_flags : Nat
  arg : Nat
  blocksize : Nat
  blockcount : Nat
  buf_offset : Nat
  use_dma : Bool
  pmtValid : Bool
  status : Int
  response : Resp4
deriving DecidableEq, Repr

/-- The mutex-guarded slot state of the driver: `cmd_req_` and `data_req_`
(as occupancy flags — the source's invariant, stated in the spec, is that
the two pointer slots never hold two distinct requests, so the single
in-flight request lives in `req`), the data-phase cursor `data_blockid_`
(`uint16_t`), the `data_done_` flag, and the `card_interrupt_masked_`
flag. -/
structure DState where
  cmdReq : Bool
  dataReq : Bool
  req : Req
  dataBlockid : Nat
  dataDone : Bool
  cardMasked : Bool
deriving DecidableEq, Repr

/-- Either slot is occupied: the "one command at a time" test of
`SdmmcRequest` (sdhci.cc line 818). -/
def occupied (s : DState) : Bool := s.cmdReq || s.dataReq

/-- The interrupt bits read-and-acknowledged by one wakeup of the
interrupt thread (sdhci.cc lines 324, 337-365). -/
structure Irq where
  commandComplete : Bool
  bufferReadReady : Bool
  bufferWriteReady : Bool
  transferComplete : Bool
  errorInterrupt : Bool
  cardInterrupt : Bool
deriving DecidableEq, Repr

/-! ## Completion state machine (sdhci.cc lines 184-378)

Each handler returns the new state paired with the number of completion
signals it fired.  `CompleteRequestLocked` stores the terminal status and
signals the completion in one step (sdhci.cc lines 195-196), so a signal
and a status store always come together. -/

/-- `CompleteRequestLocked` (sdhci.cc lines 184-197): narrow the interrupt
enables back to idle, clear both slots, the cursor and the flag, store the
final status, and signal completion (counted by the caller). -/
def completeRequestLocked (status : Int) (s : DState) : DState :=
  { s with
    cmdReq := false
    dataReq := false
    dataBlockid := 0
    dataDone := false
    req := { s.req with status := status } }

/-- `CmdStageCompleteLocked` (sdhci.cc lines 199-240): spurious without a
pending command; otherwise capture the response, then complete if there is
no data stage or it already finished, else clear only the command slot. -/
def cmdStageCompleteLocked (quirks : Nat) (raw : Resp4) (s : DState) : DState × Nat :=
  if !s.cmdReq then
    (s, 0)
  else
    let s := { s with req := { s.req with
      response := captureResponse quirks s.req.cmd_flags s.req.response raw } }
    if !s.dataReq || s.dataDone then
      (completeRequestLocked ZX_OK s, 1)
    else
      ({ s with cmdReq := false }, 0)

/-- `DataStageReadReadyLocked` (sdhci.cc lines 242-263): spurious without
a data request carrying data; tuning-pattern commands complete here;
otherwise one block is transferred from the data port and the cursor
advances (`uint16_t` increment).  The block payload itself is outside the
model. -/
def dataStageReadReadyLocked (s : DState) : DState × Nat :=
  if !s.dataReq || !sdmmcCmdHasData s.req.cmd_flags then
    (s, 0)
  else if s.req.cmd_idx = MMC_SEND_TUNING_BLOCK ∨ s.req.cmd_idx = SD_SEND_TUNING_BLOCK then
    (completeRequestLocked ZX_OK s, 1)
  else
    ({ s with dataBlockid := (s.dataBlockid + 1) % 2 ^ 16 }, 0)

/-- `DataStageWriteReadyLocked` (sdhci.cc lines 265-280): spurious without
a data request carrying data; otherwise one block goes out and the cursor
advances. -/
def dataStageWriteReadyLocked (s : DState) : DState × Nat :=
  if !s.dataReq || !sdmmcCmdHasData s.req.cmd_flags then
    (s, 0)
  else
    ({ s with dataBlockid := (s.dataBlockid + 1) % 2 ^ 16 }, 0)

/-- `TransferCompleteLocked` (sdhci.cc lines 282-295): spurious without a
data request; defers to the command handler when the command phase is
still outstanding, else completes. -/
def transferCompleteLocked (s : DState) : DState × Nat :=
  if !s.dataReq then
    (s, 0)
  else if s.cmdReq then
    ({ s with dataDone := true }, 0)
  else
    (completeRequestLocked ZX_OK s, 1)

/-- `ErrorRecoveryLocked` (sdhci.cc lines 297-310): reset both hardware
state machines (bounded register polls, outside the slot state), then
complete whichever slot is non-empty with `ZX_ERR_IO`, command first. -/
def errorRecoveryLocked (s : DState) : DState × Nat :=
  if s.cmdReq then
    (completeRequestLocked ZX_ERR_IO s, 1)
  else if s.dataReq then
    (completeRequestLocked ZX_ERR_IO s, 1)
  else
    (s, 0)

/-- Sequencing of two signal-counting steps. -/
def stepSeq (f g : DState → DState × Nat) (s : DState) : DState × Nat :=
  let (s1, n1) := f s
  let (s2, n2) := g s1
  (s2, n1 + n2)

/-- A handler guarded by its interrupt bit. -/
def stepIf (b : Bool) (f : DState → DState × Nat) (s : DState) : DState × Nat :=
  if b then f s else (s, 0)

/-- One iteration of the interrupt-thread dispatch (sdhci.cc lines
329-375): with a non-scatter-gather request pending, run the four
completion handlers and error recovery in source order; the scatter-gather
branch (`pending_request_`) concerns a different request path and is never
pending here.  Independently, a card interrupt masks further card
interrupts at the status-enable level (the callback does not touch the
slots). -/
def irqThreadStep (quirks : Nat) (raw : Resp4) (s : DState) (irq : Irq) : DState × Nat :=
  let (s1, n1) :=
    if s.cmdReq || s.dataReq then
      stepSeq
        (stepIf irq.commandComplete (cmdStageCompleteLocked quirks raw))
        (stepSeq (stepIf irq.bufferReadReady dataStageReadReadyLocked)
          (stepSeq (stepIf irq.bufferWriteReady dataStageWriteReadyLocked)
            (stepSeq (stepIf irq.transferComplete transferCompleteLocked)
              (stepIf irq.errorInterrupt errorRecoveryLocked)))) s
    else
      (s, 0)
  if irq.cardInterrupt then
    ({ s1 with cardMasked := true }, n1)
  else
    (s1, n1)

/-- The interrupt thread processing a sequence of wakeups, accumulating
the number of completion signals fired. -/
def runIrqs (quirks : Nat) (raw : Resp4) (s : DState) : List Irq → DState × Nat
  | [] => (s, 0)
  | irq :: rest =>
    let (s1, n1) := irqThreadStep quirks raw s irq
    let (s2, n2) := runIrqs quirks raw s1 rest
    (s2, n1 + n2)

/-! ## Command/data issue (sdhci.cc lines 380-608) -/

/-- The register writes performed by the issue path, in order.  Payload
values are carried where a claim depends on them. -/
inductive RegWrite
  | admaSystemAddress0
  | admaSystemAddress1
  | blockSize (v : Nat)
  | blockCount (v : Nat)
  | argument (v : Nat)
  | interruptStatusClear
  | interruptSignalEnable
  | interruptStatusEnable
  | transferMode
  | command
deriving DecidableEq, Repr

/-- The hardware/platform responses consumed by `StartRequestLocked` and
`BuildDmaDescriptor`: whether the host reports ADMA2 (`SupportsAdma2`,
sdhci.h not in tree: the DMA capability bit of the host-info snapshot),
the outcome of the bounded inhibit wait, the 64-bit addressing capability
bit, the pin/cache result of `PinRequestPages`, the physical-extent runs
the iterator yields for the pinned pages, whether the descriptor buffer's
own physical address fits the addressing width, and the result of the
cache clean over the descriptor memory. -/
structure StartEnv where
  supportsAdma2 : Bool
  inhibitOk : Bool
  caps64 : Bool
  pinStatus : Int
  runs : List (Nat × Nat)
  descPhysOk : Bool
  descCacheStatus : Int
deriving Repr

/-- The page count covering the transfer's byte extent
(sdhci.cc lines 415-417): partial leading/trailing pages included. -/
def pageCount (req : Req) : Nat :=
  ((req.buf_offset % kPageSize) + req.blockcount * req.blocksize + (kPageSize - 1)) / kPageSize

/-- `BuildDmaDescriptor` (sdhci.cc lines 410-531): reject when the page
count exceeds the chain capacity (before any pinning or register write),
pin the pages (setting `req->pmt`), build the chain, check the descriptor
buffer's own address, clean the cache over it, and program the chain base
address into the controller.  Returns the status, the updated request and
the register writes performed. -/
def buildDmaDescriptor (env : StartEnv) (quirks dmaBoundaryAlignment : Nat) (req : Req) :
    Int × Req × List RegWrite :=
  if pageCount req > SDMMC_PAGES_COUNT then
    (ZX_ERR_INVALID_ARGS, req, [])
  else if env.pinStatus ≠ ZX_OK then
    (env.pinStatus, req, [])
  else
    -- `PinRequestPages` succeeded: `req->pmt` now holds the pin handle.
    let req := { req with pmtValid := true }
    let addrMask := if env.caps64 then 2 ^ 64 - 1 else 2 ^ 32 - 1
    match descLoop (quirks &&& SDHCI_QUIRK_USE_DMA_BOUNDARY_ALIGNMENT ≠ 0)
        dmaBoundaryAlignment kMaxDescriptorLength kDmaDescCount addrMask env.runs 0 0 0 with
    | .error e => (e, req, [])
    | .ok [] => (ZX_ERR_NOT_SUPPORTED, req, [])
    | .ok _ =>
      if !env.descPhysOk then
        (ZX_ERR_NOT_SUPPORTED, req, [])
      else if env.descCacheStatus ≠ ZX_OK then
        (env.descCacheStatus, req, [])
      else
        (ZX_OK, req, [.admaSystemAddress0, .admaSystemAddress1])

/-- `StartRequestLocked` (sdhci.cc lines 533-608).  Precondition of its
only caller: both slots empty.  Maps the flags (pure), rejects DMA without
host support, performs the bounded inhibit wait, builds the descriptor
chain for DMA data transfers, programs block size/count and argument,
clears stale interrupt bits, enables the interrupt set, writes
transfer-mode then command (arming the hardware), and records the slots
and cursor.  Returns status, new slot state, the (possibly pin-updated)
request, and the register writes performed. -/
def startRequestLocked (env : StartEnv) (quirks dmaBoundaryAlignment : Nat)
    (s : DState) (req : Req) : Int × DState × Req × List RegWrite :=
  if req.use_dma && !env.supportsAdma2 then
    (ZX_ERR_NOT_SUPPORTED, s, req, [])
  else
    -- Bounded wait for `startInhibitMask req.cmd_flags` to clear.
    if !env.inhibitOk then
      (ZX_ERR_TIMED_OUT, s, req, [])
    else
      let dma :=
        if sdmmcCmdHasData req.cmd_flags && req.use_dma then
          buildDmaDescriptor env quirks dmaBoundaryAlignment req
        else
          (ZX_OK, req, [])
      let st := dma.1
      let req := dma.2.1
      if st ≠ ZX_OK then
        (st, s, req, dma.2.2)
      else
        let writes := dma.2.2 ++
          [.blockSize req.blocksize, .blockCount req.blockcount, .argument req.arg,
           .interruptStatusClear, .interruptSignalEnable, .interruptStatusEnable,
           .transferMode, .command]
        let s' : DState :=
          { s with
            cmdReq := true
            dataReq := sdmmcCmdHasData req.cmd_flags || sdmmcCmdRspBusy req.cmd_flags
            req := req
            dataBlockid := 0
            dataDone := false }
        (ZX_OK, s', req, writes)

/-! ## Post-transfer fixup (sdhci.cc lines 610-638) -/

/-- The environment of `FinishRequest`: the result of the final read-path
cache clean-invalidate, of `zx_pmt_unpin`, and of the bounded dual-line
reset after an abort-class command. -/
structure FinishEnv where
  cacheStatus : Int
  unpinStatus : Int
  resetStatus : Int
deriving Repr

/-- `FinishRequest` (sdhci.cc lines 610-638): if DMA was used and the pin
handle is valid, clean-invalidate the read path once more, then unpin
(clearing `req->pmt`); either failure is returned.  For abort-class
commands the outcome of the bounded reset of both lines becomes the return
status. -/
def finishRequest (env : FinishEnv) (req : Req) : Int × Req :=
  if req.use_dma && req.pmtValid then
    if (req.cmd_flags &&& SDMMC_CMD_READ ≠ 0) && req.use_dma && (env.cacheStatus ≠ ZX_OK) then
      (env.cacheStatus, req)
    else
      let req := { req with pmtValid := false }
      if env.unpinStatus ≠ ZX_OK then
        (env.unpinStatus, req)
      else if req.cmd_flags &&& SDMMC_CMD_TYPE_ABORT ≠ 0 then
        (env.resetStatus, req)
      else
        (ZX_OK, req)
  else if req.cmd_flags &&& SDMMC_CMD_TYPE_ABORT ≠ 0 then
    (env.resetStatus, req)
  else
    (ZX_OK, req)

/-! ## Synchronous request entry point (sdhci.cc lines 811-837) -/

/-- The outcome of one `SdmmcRequest` call: either the caller is blocked
forever on the completion signal (no interrupt in the trace completed the
request — the layer has no timeout), or the call returns.  `signals`
counts the completion-signal firings attributable to this call; `req` is
the caller's request object after `FinishRequest`. -/
inductive ReqOutcome
  | blocked (s : DState) (signals : Nat)
  | done (status : Int) (s : DState) (req : Req) (signals : Nat)
deriving DecidableEq, Repr

/-- The number of completion signals of an outcome. -/
def ReqOutcome.signals : ReqOutcome → Nat
  | .blocked _ n => n
  | .done _ _ _ n => n

/-- `SdmmcRequest` (sdhci.cc lines 811-837): fail with busy if either slot
is occupied; otherwise issue under the lock, block on the completion
signal, run `FinishRequest` (its result is discarded), and return the
request's stored status.  On a synchronous issue failure `FinishRequest`
also runs (result equally discarded) and the issue error is returned.
`irqs` is the sequence of interrupt wakeups delivered while the caller
waits. -/
def sdmmcRequest (senv : StartEnv) (fenv : FinishEnv) (quirks dmaBoundaryAlignment : Nat)
    (raw : Resp4) (s : DState) (req : Req) (irqs : List Irq) : ReqOutcome :=
  if s.cmdReq || s.dataReq then
    -- one command at a time
    .done ZX_ERR_SHOULD_WAIT s (finishRequest fenv req).2 0
  else
    match startRequestLocked senv quirks dmaBoundaryAlignment s req with
    | (st, s1, req1, _) =>
      if st ≠ ZX_OK then
        .done st s1 (finishRequest fenv req1).2 0
      else
        match runIrqs quirks raw s1 irqs with
        | (s2, n) =>
          if n = 0 then
            .blocked s2 0
          else
            .done s2.req.status s2 (finishRequest fenv s2.req).2 n

/-! ## Bus frequency (sdhci.cc lines 725-757) -/

/-- The fields of the `ClockControl` register the driver touches
(sdhci-reg.h not in tree; modelled from the spec's frequency-change
sequence). -/
structure ClockControl where
  frequency_select : Nat
  internal_clock_enable : Bool
  sd_clock_enable : Bool
  internal_clock_stable : Bool
deriving DecidableEq, Repr

/-- The observable actions of `SdmmcSetBusFreq`, in order: the bounded
inhibit wait, writes of the clock-control register, and the bounded wait
for the internal clock to stabilize. -/
inductive BusFreqEffect
  | inhibitWait
  | clockWrite (v : ClockControl)
  | clockStableWait
deriving DecidableEq, Repr

/-- `SdmmcSetBusFreq` (sdhci.cc lines 725-757): wait for both inhibits,
turn off the SD clock (one read-modify-write); with a zero target rate
return success there; otherwise drop the internal clock enable, program
the divider and re-enable the internal clock, wait for stability, and turn
the SD clock back on. -/
def sdmmcSetBusFreq (inhibitOk : Bool) (clockRead : ClockControl) (stableOk : Bool)
    (baseClock busFreq : Nat) : Int × List BusFreqEffect :=
  if !inhibitOk then
    (ZX_ERR_TIMED_OUT, [.inhibitWait])
  else
    let clock := { clockRead with sd_clock_enable := false }
    if busFreq = 0 then
      (ZX_OK, [.inhibitWait, .clockWrite clock])
    else
      let clock1 := { clock with internal_clock_enable := false }
      let clock2 := { clock1 with
        frequency_select := getClockDividerValue baseClock busFreq
        internal_clock_enable := true }
      if !stableOk then
        (ZX_ERR_TIMED_OUT,
         [.inhibitWait, .clockWrite clock1, .clockWrite clock2, .clockStableWait])
      else
        (ZX_OK,
         [.inhibitWait, .clockWrite clock1, .clockWrite clock2, .clockStableWait,
          .clockWrite { clock2 with sd_clock_enable := true }])

/-! ## Tuning (sdhci.cc lines 839-884) -/

/-- The two `HostControl2` bits the tuning procedure reads. -/
structure TuningCtrl where
  executeTuning : Bool
  useTunedClock : Bool
deriving DecidableEq, Repr

/-- The verdict after the loop (sdhci.cc lines 879-883): success requires
execute-tuning cleared and use-tuned-clock set on the final read. -/
def tuningResult (r : TuningCtrl) : Int :=
  if r.executeTuning ∨ ¬r.useTunedClock then ZX_ERR_IO else ZX_OK

/-- The tuning loop (sdhci.cc lines 863-877).  `issue k` is the status of
the `k`-th tuning-pattern request (issued through the synchronous request
API); `reads k` is the `HostControl2` value of the register re-read that
follows it — the read after the loop reuses the next index.  `fuel`
is `kMaxTuningCount - count`; `exec` is the execute-tuning bit of the
local register copy (initially set by the pre-loop write).  Returns the
call's status and the number of tuning requests issued. -/
def tuningLoop (issue : Nat → Int) (reads : Nat → TuningCtrl) :
    Nat → Nat → Bool → Int × Nat
  | 0, issued, _ => (tuningResult (reads issued), issued)
  | fuel + 1, issued, exec =>
    if exec then
      if issue issued ≠ ZX_OK then
        (issue issued, issued + 1)
      else
        tuningLoop issue reads fuel (issued + 1) (reads issued).executeTuning
    else
      (tuningResult (reads issued), issued)

/-- `SdmmcPerformTuning` (sdhci.cc lines 839-884): set the execute-tuning
bit, loop up to `kMaxTuningCount` tuning-pattern requests, stop early when
the bit self-clears or a request fails, then judge the final register
read. -/
def sdmmcPerformTuning (issue : Nat → Int) (reads : Nat → TuningCtrl) : Int × Nat :=
  tuningLoop issue reads kMaxTuningCount 0 true

/-! ## Concrete instances used by witnesses and counterexamples -/

/-- A plain 48-bit-response command request (no data, no DMA). -/
def baseReq : Req :=
  { cmd_idx := 17, cmd_flags := SDMMC_RESP_LEN_48, arg := 0, blocksize := 512,
    blockcount := 1, buf_offset := 0, use_dma := false, pmtValid := false,
    status := 7777, response := ⟨0, 0, 0, 0⟩ }

/-- The idle driver state: both slots empty. -/
def idleState : DState :=
  { cmdReq := false, dataReq := false, req := baseReq, dataBlockid := 0,
    dataDone := false, cardMasked := false }

/-- `baseReq` with DMA requested. -/
def reqDma : Req := { baseReq with use_dma := true }

/-- `baseReq` with DMA used and a valid pin handle. -/
def reqDmaPinned : Req := { baseReq with use_dma := true, pmtValid := true }

/-- A DMA data request whose covering page count (513 pages) exceeds the
chain capacity. -/
def reqTooManyPages : Req :=
  { baseReq with
    cmd_flags := SDMMC_RESP_LEN_48 ||| SDMMC_RESP_DATA_PRESENT ||| SDMMC_CMD_READ
    blocksize := 4096
    blockcount := 513
    use_dma := true }

/-- An issue environment in which the host reports no ADMA2 support. -/
def senvNoAdma : StartEnv :=
  { supportsAdma2 := false, inhibitOk := true, caps64 := false, pinStatus := ZX_OK,
    runs := [], descPhysOk := true, descCacheStatus := ZX_OK }

/-- An issue environment in which everything the hardware answers is
benign. -/
def senvOk : StartEnv :=
  { supportsAdma2 := true, inhibitOk := true, caps64 := false, pinStatus := ZX_OK,
    runs := [], descPhysOk := true, descCacheStatus := ZX_OK }

/-- A fixup environment in which every operation succeeds. -/
def fenvOk : FinishEnv := { cacheStatus := ZX_OK, unpinStatus := ZX_OK, resetStatus := ZX_OK }

/-- A fixup environment in which `zx_pmt_unpin` fails. -/
def fenvUnpinFail : FinishEnv :=
  { cacheStatus := ZX_OK, unpinStatus := ZX_ERR_BAD_STATE, resetStatus := ZX_OK }

/-- An interrupt wakeup carrying only command-complete. -/
def irqCmdComplete : Irq :=
  { commandComplete := true, bufferReadReady := false, bufferWriteReady := false,
    transferComplete := false, errorInterrupt := false, cardInterrupt := false }

/-- Response registers all zero. -/
def rawZero : Resp4 := ⟨0, 0, 0, 0⟩

/-- A tuning environment whose requests all succeed. -/
def tuneIssueOk : Nat → Int := fun _ => ZX_OK

/-- Tuning-control reads reporting execute-tuning cleared and the tuned
clock in use. -/
def tuneReadsDone : Nat → TuningCtrl := fun _ => ⟨false, true⟩

/-- Written from the spec's words, for comparison with `captureResponse`:
the "strip CRC, preserve order" layout — each raw word shifted left by 8
bits, OR-ed with the top byte of the preceding raw word (no OR term for
the first word). -/
def stripCrcPreserveOrderSpec (raw : Resp4) : Resp4 :=
  { r0 := (raw.r0 <<< 8) % 2 ^ 32
    r1 := ((raw.r1 <<< 8) % 2 ^ 32) ||| ((raw.r0 >>> 24) &&& 0xff)
    r2 := ((raw.r2 <<< 8) % 2 ^ 32) ||| ((raw.r1 >>> 24) &&& 0xff)
    r3 := ((raw.r3 <<< 8) % 2 ^ 32) ||| ((raw.r2 >>> 24) &&& 0xff) }

/-- Distinct raw response words. -/
def rawDistinct : Resp4 := ⟨0x11111111, 0x22222222, 0x33333333, 0x44444444⟩

/-- The status of an outcome as seen by the caller (`none` when the caller
never returns). -/
def ReqOutcome.statusOf : ReqOutcome → Option Int
  | .blocked _ _ => none
  | .done st _ _ _ => some st

/-- A driver state with a request outstanding in both slots. -/
def busyState : DState := { idleState with cmdReq := true, dataReq := true }

/-- The per-step signalling invariant of the completion state machine: a
step fires at most one completion signal; from an unoccupied state it
fires none and stays unoccupied; from an occupied state it leaves the
state occupied exactly when it fired no signal (so the only way to empty
the slots is to complete, and completing empties them). -/
def SignalInv (f : DState → DState × Nat) : Prop :=
  ∀ s, (f s).2 ≤ 1 ∧
    (occupied s = false → (f s).2 = 0 ∧ occupied (f s).1 = false) ∧
    (occupied s = true → (occupied (f s).1 = true ↔ (f s).2 = 0))

/-! # Theorems -/

set_option maxHeartbeats 1000000
set_option maxRecDepth 4000

/-- C2: the inhibit mask the source actually builds at the failing input.
A busy-response (48-bit-with-busy) command that is not abort-class gets a
mask without the data-inhibit bit, contradicting both the claim and the
source's own comment ("Busy type commands must also wait for the DATA
Inhibit to be 0 UNLESS it's an abort command"): the source's condition
conjoins the abort test instead of negating it.  An abort-class busy
command, conversely, does get the data-inhibit bit. -/
theorem startInhibitMask_busy_nonabort_omits_dat :
    (startInhibitMask (SDMMC_RESP_LEN_48B ||| SDMMC_CMD_TYPE_NORMAL)).dat = false ∧
    (startInhibitMask (SDMMC_RESP_LEN_48B ||| SDMMC_CMD_TYPE_NORMAL)).cmd = true ∧
    (startInhibitMask (SDMMC_RESP_LEN_48B ||| SDMMC_CMD_TYPE_ABORT)).dat = true := by
  decide

/-- C5 counterexample: with both CRC-stripping quirk bits set the
strip-CRC-preserve-order quirk is active, yet the stored words are not the
preserve-order layout (the plain strip-CRC branch is taken first,
sdhci.cc line 214). -/
theorem captureResponse_bothQuirks_counterexample :
    captureResponse
        (SDHCI_QUIRK_STRIP_RESPONSE_CRC ||| SDHCI_QUIRK_STRIP_RESPONSE_CRC_PRESERVE_ORDER)
        SDMMC_RESP_LEN_136 rawZero rawDistinct ≠ stripCrcPreserveOrderSpec rawDistinct := by
  decide

/-- C5 amended: for a 136-bit response, when the strip-CRC-preserve-order
quirk is active and the plain strip-CRC quirk is not, the stored words are
the documented shifted layout; when neither CRC-stripping quirk is active
the four raw words pass through unchanged. -/
theorem captureResponse_amended :
    (∀ quirks flags old raw,
        flags &&& SDMMC_RESP_LEN_136 ≠ 0 →
        quirks &&& SDHCI_QUIRK_STRIP_RESPONSE_CRC_PRESERVE_ORDER ≠ 0 →
        quirks &&& SDHCI_QUIRK_STRIP_RESPONSE_CRC = 0 →
        captureResponse quirks flags old raw = stripCrcPreserveOrderSpec raw) ∧
    (∀ quirks flags old raw,
        flags &&& SDMMC_RESP_LEN_136 ≠ 0 →
        quirks &&& SDHCI_QUIRK_STRIP_RESPONSE_CRC = 0 →
        quirks &&& SDHCI_QUIRK_STRIP_RESPONSE_CRC_PRESERVE_ORDER = 0 →
        captureResponse quirks flags old raw = raw) := by
  constructor <;> intro quirks flags old raw h1 h2 h3 <;>
    simp [captureResponse, stripCrcPreserveOrderSpec, h1, h2, h3]

/-- C5 witness for the amended claim: a concrete 136-bit response under
the preserve-order quirk alone, and under no CRC quirk. -/
theorem captureResponse_amended_witness :
    captureResponse SDHCI_QUIRK_STRIP_RESPONSE_CRC_PRESERVE_ORDER SDMMC_RESP_LEN_136
        rawZero rawDistinct = stripCrcPreserveOrderSpec rawDistinct ∧
    captureResponse 0 SDMMC_RESP_LEN_136 rawZero rawDistinct = rawDistinct :=
  ⟨captureResponse_amended.1 SDHCI_QUIRK_STRIP_RESPONSE_CRC_PRESERVE_ORDER SDMMC_RESP_LEN_136
      rawZero rawDistinct (by decide) (by decide) (by decide),
   captureResponse_amended.2 0 SDMMC_RESP_LEN_136 rawZero rawDistinct
      (by decide) (by decide) (by decide)⟩

/-- C6 counterexample: for base clock 131072 and target rate 1 the
`uint16_t` cast in `GetClockDividerValue` (sdhci.cc line 60) truncates the
quotient 65536 to 0 before the cap, so the computed divider is 0 while the
claim's formula — the ceiling capped at the maximum field value — gives
the cap. -/
theorem getClockDividerValue_truncation_counterexample :
    getClockDividerValue 131072 1 = 0 ∧
    clockDividerSpec 131072 1 = kMaxFrequencySelect ∧
    getClockDividerValue 131072 1 ≠ clockDividerSpec 131072 1 := by
  decide

/-- C6 amended: for a positive target below `2^31` (no 32-bit overflow of
`2 * target_rate`) and a 32-bit base clock, the computed divider is 0 when
the target is at least the base clock, and otherwise the ceiling of
`base / (2 * target)` truncated to 16 bits *before* being capped at the
maximum frequency-select value; in particular 200 MHz / 25 MHz gives 4. -/
theorem getClockDividerValue_amended :
    (∀ b t, 0 < t → t < 2 ^ 31 → b < 2 ^ 32 →
        getClockDividerValue b t =
          if t ≥ b then 0
          else min kMaxFrequencySelect (((b + 2 * t - 1) / (2 * t)) % 2 ^ 16)) ∧
    getClockDividerValue 200000000 25000000 = 4 := by
  constructor
  · intro b t ht ht31 hb
    unfold getClockDividerValue
    by_cases hge : t ≥ b
    · simp [hge]
    · simp only [hge, if_false]
      have hd : 0 < 2 * t := by omega
      have h2t : (2 * t) % 2 ^ 32 = 2 * t := Nat.mod_eq_of_lt (by omega)
      rw [h2t]
      have hdm := Nat.div_add_mod b (2 * t)
      have hm : b % (2 * t) < 2 * t := Nat.mod_lt _ hd
      have hmul : b / (2 * t) * t * 2 = 2 * t * (b / (2 * t)) := by ring
      have hle : 2 * t * (b / (2 * t)) ≤ b := by omega
      have hmod2 : b / (2 * t) * t * 2 % 2 ^ 32 = 2 * t * (b / (2 * t)) :=
        hmul ▸ Nat.mod_eq_of_lt (by omega)
      rw [hmod2]
      by_cases hz : b % (2 * t) = 0
      · have hceil : (b + 2 * t - 1) / (2 * t) = b / (2 * t) := by
          have hrw : b + 2 * t - 1 = 2 * t * (b / (2 * t)) + (2 * t - 1) := by omega
          have h1 := Nat.mul_add_div hd (b / (2 * t)) (2 * t - 1)
          have h2 : (2 * t - 1) / (2 * t) = 0 := Nat.div_eq_of_lt (by omega)
          rw [hrw, h1, h2]
          omega
        have hni : ¬ 2 * t * (b / (2 * t)) < b := by omega
        rw [hceil]
        simp [hni]
      · have hceil : (b + 2 * t - 1) / (2 * t) = b / (2 * t) + 1 := by
          have hrw : b + 2 * t - 1 = 2 * t * (b / (2 * t) + 1) + (b % (2 * t) - 1) := by
            have : 2 * t * (b / (2 * t) + 1) = 2 * t * (b / (2 * t)) + 2 * t := by ring
            omega
          have h1 := Nat.mul_add_div hd (b / (2 * t) + 1) (b % (2 * t) - 1)
          have h2 : (b % (2 * t) - 1) / (2 * t) = 0 := Nat.div_eq_of_lt (by omega)
          rw [hrw, h1, h2]
        have hi : 2 * t * (b / (2 * t)) < b := by omega
        rw [hceil]
        simp [hi]
  · decide

/-- C6 witness: the amended formula applied at base 200 MHz, target
25 MHz yields 4. -/
theorem getClockDividerValue_amended_witness :
    getClockDividerValue 200000000 25000000 =
      if (25000000 : Nat) ≥ 200000000 then 0
      else min kMaxFrequencySelect (((200000000 + 2 * 25000000 - 1) / (2 * 25000000)) % 2 ^ 16) := by
  have h := getClockDividerValue_amended.1 200000000 25000000 (by decide) (by decide) (by decide)
  exact h

/-- C10: with a zero target rate, the bus-frequency setter performs only
the bounded inhibit wait and a single clock-control write that clears the
SD-clock enable — the frequency divider and the internal-clock enable keep
their read values — and returns success without waiting for the
internal-clock-stable bit (the outcome is independent of it). -/
theorem sdmmcSetBusFreq_zero_rate (clockRead : ClockControl) (stableOk : Bool)
    (baseClock : Nat) :
    sdmmcSetBusFreq true clockRead stableOk baseClock 0 =
      (ZX_OK,
       [.inhibitWait,
        .clockWrite
          { frequency_select := clockRead.frequency_select
            internal_clock_enable := clockRead.internal_clock_enable
            sd_clock_enable := false
            internal_clock_stable := clockRead.internal_clock_stable }]) := by
  simp [sdmmcSetBusFreq]

/-! ## Tuning lemmas -/

/-- With the execute-tuning bit already observed clear, the loop exits at
once. -/
theorem tuningLoop_exec_false (issue : Nat → Int) (reads : Nat → TuningCtrl)
    (fuel issued : Nat) :
    tuningLoop issue reads fuel issued false = (tuningResult (reads issued), issued) := by
  cases fuel <;> rfl

/-- Unfolding of one loop iteration with the execute-tuning bit still
set. -/
theorem tuningLoop_succ_true (issue : Nat → Int) (reads : Nat → TuningCtrl)
    (n issued : Nat) :
    tuningLoop issue reads (n + 1) issued true =
      if issue issued ≠ ZX_OK then (issue issued, issued + 1)
      else tuningLoop issue reads n (issued + 1) (reads issued).executeTuning := rfl

/-- The number of issued tuning requests is bounded by the remaining
fuel. -/
theorem tuningLoop_issued_bounds (issue : Nat → Int) (reads : Nat → TuningCtrl) :
    ∀ fuel issued exec, issued ≤ (tuningLoop issue reads fuel issued exec).2 ∧
      (tuningLoop issue reads fuel issued exec).2 ≤ issued + fuel := by
  intro fuel
  induction fuel with
  | zero => intro issued exec; simp [tuningLoop]
  | succ n ih =>
    intro issued exec
    cases exec with
    | false => rw [tuningLoop_exec_false]; omega
    | true =>
      rw [tuningLoop_succ_true]
      by_cases hi : issue issued ≠ ZX_OK
      · rw [if_pos hi]; omega
      · rw [if_neg hi]
        have h := ih (issued + 1) (reads issued).executeTuning
        omega

/-- Every tuning request after the first was preceded by a register
re-read showing execute-tuning still set: the loop stops as soon as the
bit self-clears. -/
theorem tuningLoop_reads_true (issue : Nat → Int) (reads : Nat → TuningCtrl) :
    ∀ fuel issued exec j, issued ≤ j →
      j + 1 < (tuningLoop issue reads fuel issued exec).2 →
      (reads j).executeTuning = true := by
  intro fuel
  induction fuel with
  | zero => intro issued exec j hj hlt; simp [tuningLoop] at hlt; omega
  | succ n ih =>
    intro issued exec j hj hlt
    cases exec with
    | false => rw [tuningLoop_exec_false] at hlt; omega
    | true =>
      rw [tuningLoop_succ_true] at hlt
      by_cases hi : issue issued ≠ ZX_OK
      · rw [if_pos hi] at hlt; omega
      · rw [if_neg hi] at hlt
        rcases Nat.lt_or_ge issued j with hgt | hge
        · exact ih (issued + 1) (reads issued).executeTuning j hgt hlt
        · have hje : j = issued := le_antisymm hge hj
          subst hje
          by_cases hr : (reads j).executeTuning = true
          · exact hr
          · exfalso
            rw [Bool.not_eq_true] at hr
            rw [hr, tuningLoop_exec_false] at hlt
            omega

/-- When every issued tuning request succeeded, the call's verdict is the
judgment of the final register read. -/
theorem tuningLoop_all_ok (issue : Nat → Int) (reads : Nat → TuningCtrl) :
    ∀ fuel issued exec,
      (∀ i, issued ≤ i → i < (tuningLoop issue reads fuel issued exec).2 → issue i = ZX_OK) →
      (tuningLoop issue reads fuel issued exec).1 =
        tuningResult (reads (tuningLoop issue reads fuel issued exec).2) := by
  intro fuel
  induction fuel with
  | zero => intro issued exec _; simp [tuningLoop]
  | succ n ih =>
    intro issued exec hok
    cases exec with
    | false => rw [tuningLoop_exec_false]
    | true =>
      by_cases hi : issue issued ≠ ZX_OK
      · exfalso
        apply hi
        apply hok issued le_rfl
        rw [tuningLoop_succ_true, if_pos hi]
        omega
      · rw [tuningLoop_succ_true, if_neg hi]
        apply ih (issued + 1) (reads issued).executeTuning
        intro i h1 h2
        apply hok i (by omega)
        rw [tuningLoop_succ_true, if_neg hi]
        exact h2

/-- A failing tuning request aborts the loop at once: its status becomes
the call's result. -/
theorem tuningLoop_fail (issue : Nat → Int) (reads : Nat → TuningCtrl) :
    ∀ fuel issued exec i, issued ≤ i → i < (tuningLoop issue reads fuel issued exec).2 →
      issue i ≠ ZX_OK →
      (tuningLoop issue reads fuel issued exec).1 =
        issue ((tuningLoop issue reads fuel issued exec).2 - 1) ∧
      issue ((tuningLoop issue reads fuel issued exec).2 - 1) ≠ ZX_OK := by
  intro fuel
  induction fuel with
  | zero => intro issued exec i h1 h2 _; simp [tuningLoop] at h2; omega
  | succ n ih =>
    intro issued exec i h1 h2 h3
    cases exec with
    | false => rw [tuningLoop_exec_false] at h2 ⊢; omega
    | true =>
      by_cases hi : issue issued ≠ ZX_OK
      · rw [tuningLoop_succ_true, if_pos hi]
        exact ⟨by simp, by simpa using hi⟩
      · have hii : i ≠ issued := by
          intro he; rw [he] at h3; exact h3 (not_not.mp hi)
        rw [tuningLoop_succ_true, if_neg hi] at h2 ⊢
        exact ih (issued + 1) (reads issued).executeTuning i (by omega) h2 h3

/-- C9: the tuning procedure terminates, issuing at most `kMaxTuningCount`
(40) tuning-pattern requests; every request beyond the first follows a
register re-read showing execute-tuning still set (so it stops early when
the bit self-clears); when all issued requests succeed it returns success
exactly when the final read shows execute-tuning cleared and
use-tuned-clock set, reporting `ZX_ERR_IO` otherwise; and a failing
request issue aborts the loop immediately with that status as the
result. -/
theorem sdmmcPerformTuning_spec (issue : Nat → Int) (reads : Nat → TuningCtrl) :
    (sdmmcPerformTuning issue reads).2 ≤ kMaxTuningCount ∧
    (∀ j, j + 1 < (sdmmcPerformTuning issue reads).2 → (reads j).executeTuning = true) ∧
    ((∀ i, i < (sdmmcPerformTuning issue reads).2 → issue i = ZX_OK) →
      ((sdmmcPerformTuning issue reads).1 = ZX_OK ↔
        (reads (sdmmcPerformTuning issue reads).2).executeTuning = false ∧
          (reads (sdmmcPerformTuning issue reads).2).useTunedClock = true) ∧
      ((sdmmcPerformTuning issue reads).1 = ZX_OK ∨
        (sdmmcPerformTuning issue reads).1 = ZX_ERR_IO)) ∧
    (∀ i, i < (sdmmcPerformTuning issue reads).2 → issue i ≠ ZX_OK →
      (sdmmcPerformTuning issue reads).1 =
        issue ((sdmmcPerformTuning issue reads).2 - 1) ∧
      issue ((sdmmcPerformTuning issue reads).2 - 1) ≠ ZX_OK) := by
  refine ⟨?_, ?_, ?_, ?_⟩
  · have h := (tuningLoop_issued_bounds issue reads kMaxTuningCount 0 true).2
    simpa [sdmmcPerformTuning] using h
  · intro j hj
    exact tuningLoop_reads_true issue reads kMaxTuningCount 0 true j (Nat.zero_le j) hj
  · intro hok
    have h := tuningLoop_all_ok issue reads kMaxTuningCount 0 true
      (fun i _ hi => hok i hi)
    rw [sdmmcPerformTuning] at *
    rw [h]
    unfold tuningResult
    constructor
    · by_cases he : (reads (tuningLoop issue reads kMaxTuningCount 0 true).2).executeTuning <;>
        by_cases hu : (reads (tuningLoop issue reads kMaxTuningCount 0 true).2).useTunedClock <;>
        simp [he, hu, ZX_ERR_IO, ZX_OK]
    · by_cases he : (reads (tuningLoop issue reads kMaxTuningCount 0 true).2).executeTuning <;>
        by_cases hu : (reads (tuningLoop issue reads kMaxTuningCount 0 true).2).useTunedClock <;>
        simp [he, hu]
  · intro i hi hne
    exact tuningLoop_fail issue reads kMaxTuningCount 0 true i (Nat.zero_le i) hi hne

/-- C9 witness: a run whose first request succeeds and whose first re-read
shows execute-tuning cleared with the tuned clock in use returns success
within the cap. -/
theorem sdmmcPerformTuning_spec_witness :
    (sdmmcPerformTuning tuneIssueOk tuneReadsDone).1 = ZX_OK ∧
    (sdmmcPerformTuning tuneIssueOk tuneReadsDone).2 ≤ kMaxTuningCount := by
  have h := sdmmcPerformTuning_spec tuneIssueOk tuneReadsDone
  refine ⟨?_, h.1⟩
  exact (h.2.2.1 (fun i _ => rfl)).1.mpr (by decide)

/-- C4: submitting while either slot holds an outstanding request fails
immediately with `ZX_ERR_SHOULD_WAIT` and leaves the driver state — the
slots, the cursor, the flags and the outstanding request's record,
including its eventual status — exactly unchanged. -/
theorem sdmmcRequest_busy (senv : StartEnv) (fenv : FinishEnv) (quirks al : Nat)
    (raw : Resp4) (s : DState) (req : Req) (irqs : List Irq)
    (h : occupied s = true) :
    sdmmcRequest senv fenv quirks al raw s req irqs =
      .done ZX_ERR_SHOULD_WAIT s (finishRequest fenv req).2 0 := by
  unfold sdmmcRequest
  rw [occupied] at h
  simp [h]

/-- C4 witness: a concrete busy submission. -/
theorem sdmmcRequest_busy_witness :
    sdmmcRequest senvOk fenvOk 0 0 rawZero busyState baseReq [] =
      .done ZX_ERR_SHOULD_WAIT busyState baseReq 0 := by
  rw [sdmmcRequest_busy senvOk fenvOk 0 0 rawZero busyState baseReq [] (by decide)]
  decide

/-- C8: a DMA data transfer whose covering page count exceeds the chain
capacity is rejected with `ZX_ERR_INVALID_ARGS` before pinning, with zero
register writes and the slot state and request untouched; the synchronous
call returns that error. -/
theorem startRequestLocked_pagecount_reject (env : StartEnv) (quirks al : Nat)
    (s : DState) (req : Req)
    (hdma : req.use_dma = true) (hdata : sdmmcCmdHasData req.cmd_flags = true)
    (hadma : env.supportsAdma2 = true) (hinh : env.inhibitOk = true)
    (hpc : pageCount req > SDMMC_PAGES_COUNT) :
    startRequestLocked env quirks al s req = (ZX_ERR_INVALID_ARGS, s, req, []) ∧
    (occupied s = false → ∀ fenv raw irqs,
      sdmmcRequest env fenv quirks al raw s req irqs =
        .done ZX_ERR_INVALID_ARGS s (finishRequest fenv req).2 0) := by
  have hne : ZX_ERR_INVALID_ARGS ≠ ZX_OK := by decide
  have hstart : startRequestLocked env quirks al s req = (ZX_ERR_INVALID_ARGS, s, req, []) := by
    unfold startRequestLocked buildDmaDescriptor
    simp [hdma, hadma, hinh, hdata, hpc, hne]
  refine ⟨hstart, ?_⟩
  intro hocc fenv raw irqs
  unfold sdmmcRequest
  rw [occupied] at hocc
  simp [hocc, hstart, hne]

/-- C8 witness: a 513-page read transfer is rejected with zero register
writes. -/
theorem startRequestLocked_pagecount_reject_witness :
    startRequestLocked senvOk 0 0 idleState reqTooManyPages =
      (ZX_ERR_INVALID_ARGS, idleState, reqTooManyPages, []) ∧
    sdmmcRequest senvOk fenvOk 0 0 rawZero idleState reqTooManyPages [] =
      .done ZX_ERR_INVALID_ARGS idleState reqTooManyPages 0 := by
  have h := startRequestLocked_pagecount_reject senvOk 0 0 idleState reqTooManyPages
    (by decide) (by decide) (by decide) (by decide) (by decide)
  refine ⟨h.1, ?_⟩
  rw [h.2 (by decide) fenvOk rawZero []]
  decide

/-! ## Signalling invariant of the completion state machine -/

/-- Completing a request empties both slots. -/
theorem occupied_completeRequestLocked (st : Int) (s : DState) :
    occupied (completeRequestLocked st s) = false := rfl

/-- The card-interrupt mask does not touch the slots. -/
theorem occupied_cardMasked (s : DState) :
    occupied { s with cardMasked := true } = occupied s := rfl

/-- The command-complete handler satisfies the signalling invariant. -/
theorem cmdStageCompleteLocked_signalInv (quirks : Nat) (raw : Resp4) :
    SignalInv (cmdStageCompleteLocked quirks raw) := by
  intro s
  rcases s with ⟨cr, dr, req, bid, dd, cm⟩
  cases cr <;> cases dr <;> cases dd <;>
    simp [cmdStageCompleteLocked, completeRequestLocked, occupied]

/-- The buffer-read-ready handler satisfies the signalling invariant. -/
theorem dataStageReadReadyLocked_signalInv : SignalInv dataStageReadReadyLocked := by
  intro s
  rcases s with ⟨cr, dr, req, bid, dd, cm⟩
  by_cases hd : sdmmcCmdHasData req.cmd_flags <;>
    by_cases ht : req.cmd_idx = MMC_SEND_TUNING_BLOCK ∨ req.cmd_idx = SD_SEND_TUNING_BLOCK <;>
      cases cr <;> cases dr <;>
        simp [dataStageReadReadyLocked, completeRequestLocked, occupied, hd, ht]

/-- The buffer-write-ready handler satisfies the signalling invariant. -/
theorem dataStageWriteReadyLocked_signalInv : SignalInv dataStageWriteReadyLocked := by
  intro s
  rcases s with ⟨cr, dr, req, bid, dd, cm⟩
  by_cases hd : sdmmcCmdHasData req.cmd_flags <;>
    cases cr <;> cases dr <;>
      simp [dataStageWriteReadyLocked, occupied, hd]

/-- The transfer-complete handler satisfies the signalling invariant. -/
theorem transferCompleteLocked_signalInv : SignalInv transferCompleteLocked := by
  intro s
  rcases s with ⟨cr, dr, req, bid, dd, cm⟩
  cases cr <;> cases dr <;>
    simp [transferCompleteLocked, completeRequestLocked, occupied]

/-- The error-recovery handler satisfies the signalling invariant. -/
theorem errorRecoveryLocked_signalInv : SignalInv errorRecoveryLocked := by
  intro s
  rcases s with ⟨cr, dr, req, bid, dd, cm⟩
  cases cr <;> cases dr <;>
    simp [errorRecoveryLocked, completeRequestLocked, occupied]

/-- Guarding a handler by its interrupt bit preserves the invariant. -/
theorem stepIf_signalInv (b : Bool) (f : DState → DState × Nat) (hf : SignalInv f) :
    SignalInv (stepIf b f) := by
  intro s
  cases b
  · simp [stepIf]
  · simpa [stepIf] using hf s

/-- Sequencing preserves the invariant: at most one of the two steps can
fire, because firing empties the slots and an empty state stays silent. -/
theorem stepSeq_signalInv (f g : DState → DState × Nat)
    (hf : SignalInv f) (hg : SignalInv g) : SignalInv (stepSeq f g) := by
  intro s
  rcases hfs : f s with ⟨s1, n1⟩
  rcases hgs : g s1 with ⟨s2, n2⟩
  have Hf := hf s
  rw [hfs] at Hf
  have Hg := hg s1
  rw [hgs] at Hg
  obtain ⟨hf1, hf2, hf3⟩ := Hf
  obtain ⟨hg1, hg2, hg3⟩ := Hg
  have hseq : stepSeq f g s = (s2, n1 + n2) := by
    simp [stepSeq, hfs, hgs]
  rw [hseq]
  dsimp only at hf1 hf2 hf3 hg1 hg2 hg3 ⊢
  by_cases ho : occupied s = true
  · by_cases hn1 : n1 = 0
    · have ho1 : occupied s1 = true := (hf3 ho).mpr hn1
      have h3 := hg3 ho1
      subst hn1
      refine ⟨by omega, by simp [ho], fun _ => ?_⟩
      simpa using h3
    · have hn1e : n1 = 1 := by omega
      have ho1 : occupied s1 = false := by
        rcases Bool.eq_false_or_eq_true (occupied s1) with h | h
        · exact absurd ((hf3 ho).mp h) hn1
        · exact h
      obtain ⟨hz, ho2⟩ := hg2 ho1
      subst hn1e hz
      exact ⟨by omega, by simp [ho], fun _ => by simp [ho2]⟩
  · have hof : occupied s = false := by
      rcases Bool.eq_false_or_eq_true (occupied s) with h | h
      · exact absurd h ho
      · exact h
    obtain ⟨hz1, ho1⟩ := hf2 hof
    obtain ⟨hz2, ho2⟩ := hg2 ho1
    subst hz1 hz2
    exact ⟨by omega, fun _ => ⟨rfl, ho2⟩, fun hc => absurd hc ho⟩

/-- One interrupt-thread dispatch satisfies the signalling invariant. -/
theorem irqThreadStep_signalInv (quirks : Nat) (raw : Resp4) (irq : Irq) :
    SignalInv (fun s => irqThreadStep quirks raw s irq) := by
  have hbody : SignalInv
      (stepSeq (stepIf irq.commandComplete (cmdStageCompleteLocked quirks raw))
        (stepSeq (stepIf irq.bufferReadReady dataStageReadReadyLocked)
          (stepSeq (stepIf irq.bufferWriteReady dataStageWriteReadyLocked)
            (stepSeq (stepIf irq.transferComplete transferCompleteLocked)
              (stepIf irq.errorInterrupt errorRecoveryLocked))))) :=
    stepSeq_signalInv _ _
      (stepIf_signalInv _ _ (cmdStageCompleteLocked_signalInv quirks raw))
      (stepSeq_signalInv _ _ (stepIf_signalInv _ _ dataStageReadReadyLocked_signalInv)
        (stepSeq_signalInv _ _ (stepIf_signalInv _ _ dataStageWriteReadyLocked_signalInv)
          (stepSeq_signalInv _ _ (stepIf_signalInv _ _ transferCompleteLocked_signalInv)
            (stepIf_signalInv _ _ errorRecoveryLocked_signalInv))))
  intro s
  by_cases ho : (s.cmdReq || s.dataReq) = true
  · have H := hbody s
    rcases hb : (stepSeq (stepIf irq.commandComplete (cmdStageCompleteLocked quirks raw))
        (stepSeq (stepIf irq.bufferReadReady dataStageReadReadyLocked)
          (stepSeq (stepIf irq.bufferWriteReady dataStageWriteReadyLocked)
            (stepSeq (stepIf irq.transferComplete transferCompleteLocked)
              (stepIf irq.errorInterrupt errorRecoveryLocked))))) s with ⟨s1, n1⟩
    rw [hb] at H
    have hstep : irqThreadStep quirks raw s irq =
        (if irq.cardInterrupt then { s1 with cardMasked := true } else s1, n1) := by
      simp only [irqThreadStep, ho, if_true, hb]
      cases hc : irq.cardInterrupt <;> simp
    dsimp only
    rw [hstep]
    cases hc : irq.cardInterrupt <;>
      simpa [occupied_cardMasked] using H
  · have hof : (s.cmdReq || s.dataReq) = false := by
      rcases Bool.eq_false_or_eq_true (s.cmdReq || s.dataReq) with h | h
      · exact absurd h ho
      · exact h
    have hstep : irqThreadStep quirks raw s irq =
        (if irq.cardInterrupt then { s with cardMasked := true } else s, 0) := by
      simp only [irqThreadStep, hof, if_false, Bool.false_eq_true]
      cases hc : irq.cardInterrupt <;> simp
    dsimp only
    rw [hstep]
    cases hc : irq.cardInterrupt <;>
      simp [occupied, occupied_cardMasked] at hof ⊢

/-- Unfolding of `runIrqs` over a cons as a sequencing. -/
theorem runIrqs_cons (quirks : Nat) (raw : Resp4) (irq : Irq) (rest : List Irq) :
    (fun s => runIrqs quirks raw s (irq :: rest)) =
      stepSeq (fun s => irqThreadStep quirks raw s irq)
        (fun s => runIrqs quirks raw s rest) := rfl

/-- Processing any interrupt sequence satisfies the signalling invariant:
at most one completion signal total, exactly one precisely when the state
goes from occupied to idle. -/
theorem runIrqs_signalInv (quirks : Nat) (raw : Resp4) (irqs : List Irq) :
    SignalInv (fun s => runIrqs quirks raw s irqs) := by
  induction irqs with
  | nil =>
    intro s
    simp [runIrqs]
  | cons irq rest ih =>
    rw [runIrqs_cons]
    exact stepSeq_signalInv _ _ (irqThreadStep_signalInv quirks raw irq) ih

/-- `StartRequestLocked` either succeeds — and then the command slot is
recorded — or fails and leaves the slot state exactly as it was (every
failure path returns before the slot assignments). -/
theorem startRequestLocked_state (env : StartEnv) (quirks al : Nat) (s : DState) (req : Req) :
    ((startRequestLocked env quirks al s req).1 = ZX_OK ∧
      occupied (startRequestLocked env quirks al s req).2.1 = true) ∨
    ((startRequestLocked env quirks al s req).1 ≠ ZX_OK ∧
      (startRequestLocked env quirks al s req).2.1 = s) := by
  unfold startRequestLocked
  by_cases h1 : (req.use_dma && !env.supportsAdma2) = true
  · right
    simp [h1, ZX_ERR_NOT_SUPPORTED, ZX_OK]
  · by_cases h2 : (!env.inhibitOk) = true
    · right
      simp [h1, h2, ZX_ERR_TIMED_OUT, ZX_OK]
    · rcases hb : (if sdmmcCmdHasData req.cmd_flags && req.use_dma then
          buildDmaDescriptor env quirks al req else (ZX_OK, req, [])) with ⟨bst, brq, bw⟩
      by_cases h3 : bst = ZX_OK
      · left
        simp [h1, h2, hb, h3, occupied]
      · right
        simp [h1, h2, hb, h3]

/-- C1 counterexample: a synchronous failure during preparation (here:
DMA requested on a host without ADMA2 support) returns the error directly
to the caller with zero completion signals, and no terminal status is
stored in the request (its status field keeps the caller's sentinel
7777) — not the "exactly one signal / one stored status" the claim
asserts for this path. -/
theorem sdmmcRequest_syncFailure_counterexample :
    sdmmcRequest senvNoAdma fenvOk 0 0 rawZero idleState reqDma [] =
      .done ZX_ERR_NOT_SUPPORTED idleState reqDma 0 ∧
    reqDma.status = 7777 := by
  constructor
  · decide
  · decide

/-- C1 amended: for a submission on an idle driver, the completion signal
fires at most once and a terminal status is stored exactly when it fires
(`CompleteRequestLocked` does both together).  An issued request signals
exactly once precisely when an interrupt completes it — the call returns
with one signal and the slots empty, and every later wakeup is spurious —
while a trace that never completes it blocks the caller with zero
signals.  A synchronous failure during preparation signals zero times and
stores no status: the issue error is returned directly. -/
theorem sdmmcRequest_signals_amended (senv : StartEnv) (fenv : FinishEnv)
    (quirks al : Nat) (raw : Resp4) (s : DState) (req : Req) (irqs : List Irq)
    (h : occupied s = false) :
    (sdmmcRequest senv fenv quirks al raw s req irqs).signals ≤ 1 ∧
    ((startRequestLocked senv quirks al s req).1 ≠ ZX_OK →
      sdmmcRequest senv fenv quirks al raw s req irqs =
        .done (startRequestLocked senv quirks al s req).1 s
          (finishRequest fenv (startRequestLocked senv quirks al s req).2.2.1).2 0) ∧
    (∀ st s2 r2 n, sdmmcRequest senv fenv quirks al raw s req irqs = .done st s2 r2 n →
      (startRequestLocked senv quirks al s req).1 = ZX_OK →
      n = 1 ∧ occupied s2 = false) ∧
    (∀ s2 n, sdmmcRequest senv fenv quirks al raw s req irqs = .blocked s2 n → n = 0) := by
  rw [occupied] at h
  rcases hsr : startRequestLocked senv quirks al s req with ⟨st, s1, req1, w⟩
  have hstate := startRequestLocked_state senv quirks al s req
  rw [hsr] at hstate
  dsimp only at hstate
  by_cases hst : st ≠ ZX_OK
  · have hs1 : s1 = s := by
      rcases hstate with ⟨he, _⟩ | ⟨_, he⟩
      · exact absurd he hst
      · exact he
    have hres : sdmmcRequest senv fenv quirks al raw s req irqs =
        .done st s1 (finishRequest fenv req1).2 0 := by
      unfold sdmmcRequest
      simp [h, hsr, hst]
    rw [hres, hs1]
    refine ⟨by simp [ReqOutcome.signals], fun _ => rfl, ?_, ?_⟩
    · intro st' s2 r2 n heq hok
      exact absurd hok hst
    · intro s2 n heq
      cases heq
  · have hstz : st = ZX_OK := not_not.mp hst
    have ho1 : occupied s1 = true := by
      rcases hstate with ⟨_, ho⟩ | ⟨hne, _⟩
      · exact ho
      · exact absurd hstz hne
    rcases hr : runIrqs quirks raw s1 irqs with ⟨s2, n⟩
    have hinv := runIrqs_signalInv quirks raw irqs s1
    dsimp only at hinv
    rw [hr] at hinv
    dsimp only at hinv
    obtain ⟨hn1, _, hiff⟩ := hinv
    by_cases hn : n = 0
    · subst hn
      have hres : sdmmcRequest senv fenv quirks al raw s req irqs = .blocked s2 0 := by
        unfold sdmmcRequest
        simp [h, hsr, hstz, hr]
      rw [hres]
      refine ⟨by simp [ReqOutcome.signals], fun hne => absurd hstz hne, ?_, ?_⟩
      · intro st' s2' r2' n' heq _
        cases heq
      · intro s2' n' heq
        cases heq
        rfl
    · have hres : sdmmcRequest senv fenv quirks al raw s req irqs =
          .done s2.req.status s2 (finishRequest fenv s2.req).2 n := by
        unfold sdmmcRequest
        simp [h, hsr, hstz, hr, hn]
      rw [hres]
      have hn1e : n = 1 := by omega
      have ho2 : occupied s2 = false := by
        rcases Bool.eq_false_or_eq_true (occupied s2) with hx | hx
        · exact absurd ((hiff ho1).mp hx) hn
        · exact hx
      refine ⟨by simp [ReqOutcome.signals, hn1e], fun hne => absurd hstz hne, ?_, ?_⟩
      · intro st' s2' r2' n' heq _
        cases heq
        exact ⟨hn1e, ho2⟩
      · intro s2' n' heq
        cases heq

/-- C1 amended witness: an issued plain command completed by one
command-complete interrupt fires exactly one signal and empties the
slots. -/
theorem sdmmcRequest_signals_amended_witness :
    (sdmmcRequest senvOk fenvOk 0 0 rawZero idleState baseReq [irqCmdComplete]).signals ≤ 1 ∧
    ((1 : Nat) = 1 ∧ occupied { idleState with req := { baseReq with status := ZX_OK } } = false) := by
  have h := sdmmcRequest_signals_amended senvOk fenvOk 0 0 rawZero idleState baseReq
    [irqCmdComplete] (by decide)
  refine ⟨h.1, ?_⟩
  exact h.2.2.1 ZX_OK { idleState with req := { baseReq with status := ZX_OK } }
    { baseReq with status := ZX_OK } 1 (by decide) (by decide)

/-- C7 counterexample: a DMA command request completes successfully, the
unpin during its post-transfer fixup fails with `ZX_ERR_BAD_STATE`, yet
the call returns `ZX_OK` — `SdmmcRequest` ignores `FinishRequest`'s
result (sdhci.cc line 832) and returns the request's stored status, so
the fixup failure is not "returned to the caller as the call's result". -/
theorem sdmmcRequest_discards_unpin_failure_counterexample :
    (sdmmcRequest senvOk fenvUnpinFail 0 0 rawZero idleState reqDmaPinned
        [irqCmdComplete]).statusOf = some ZX_OK ∧
    (finishRequest fenvUnpinFail { reqDmaPinned with status := ZX_OK }).1 =
      ZX_ERR_BAD_STATE := by
  constructor
  · decide
  · decide

/-- C7 amended: `FinishRequest` itself does return the unpin failure (and
the final read-path cache failure) even when the transfer succeeded, and
for abort-class commands the dual-line reset outcome becomes *its* return
status; but the synchronous entry point discards `FinishRequest`'s result
— the status `SdmmcRequest` returns never depends on the fixup
environment. -/
theorem finishRequest_surfaced_but_discarded :
    (∀ fenv req, req.use_dma = true → req.pmtValid = true →
        (req.cmd_flags &&& SDMMC_CMD_READ = 0 ∨ fenv.cacheStatus = ZX_OK) →
        fenv.unpinStatus ≠ ZX_OK →
        (finishRequest fenv req).1 = fenv.unpinStatus) ∧
    (∀ fenv req, req.use_dma = true → req.pmtValid = true →
        req.cmd_flags &&& SDMMC_CMD_READ ≠ 0 → fenv.cacheStatus ≠ ZX_OK →
        (finishRequest fenv req).1 = fenv.cacheStatus) ∧
    (∀ fenv req, req.cmd_flags &&& SDMMC_CMD_TYPE_ABORT ≠ 0 →
        (req.use_dma = false ∨ req.pmtValid = false) →
        (finishRequest fenv req).1 = fenv.resetStatus) ∧
    (∀ fenv req, req.use_dma = true → req.pmtValid = true →
        (req.cmd_flags &&& SDMMC_CMD_READ = 0 ∨ fenv.cacheStatus = ZX_OK) →
        fenv.unpinStatus = ZX_OK →
        req.cmd_flags &&& SDMMC_CMD_TYPE_ABORT ≠ 0 →
        (finishRequest fenv req).1 = fenv.resetStatus) ∧
    (∀ senv fenv fenv' quirks al raw s req irqs,
        (sdmmcRequest senv fenv quirks al raw s req irqs).statusOf =
          (sdmmcRequest senv fenv' quirks al raw s req irqs).statusOf) := by
  refine ⟨?_, ?_, ?_, ?_, ?_⟩
  · intro fenv req h1 h2 h3 h4
    unfold finishRequest
    rcases h3 with h3 | h3
    · simp [h1, h2, h3, h4]
    · by_cases hrf : req.cmd_flags &&& SDMMC_CMD_READ = 0
      · simp [h1, h2, hrf, h4]
      · simp [h1, h2, hrf, h3, h4]
  · intro fenv req h1 h2 h3 h4
    unfold finishRequest
    simp [h1, h2, h3, h4]
  · intro fenv req h1 h2
    unfold finishRequest
    rcases h2 with h2 | h2 <;> simp [h1, h2]
  · intro fenv req h1 h2 h3 h4 h5
    unfold finishRequest
    rcases h3 with h3 | h3
    · simp [h1, h2, h3, h4, h5]
    · by_cases hrf : req.cmd_flags &&& SDMMC_CMD_READ = 0
      · simp [h1, h2, hrf, h4, h5]
      · simp [h1, h2, hrf, h3, h4, h5]
  · intro senv fenv fenv' quirks al raw s req irqs
    unfold sdmmcRequest
    by_cases hb : (s.cmdReq || s.dataReq) = true
    · simp [hb, ReqOutcome.statusOf]
    · rcases hsr : startRequestLocked senv quirks al s req with ⟨st, s1, req1, w⟩
      by_cases hst : st = ZX_OK
      · rcases hr : runIrqs quirks raw s1 irqs with ⟨s2, n⟩
        by_cases hn : n = 0 <;>
          simp [hb, hst, hr, hn, ReqOutcome.statusOf]
      · simp [hb, hst, ReqOutcome.statusOf]

/-- C7 witness for the amended claim: a concrete unpin failure surfacing
from `FinishRequest`, and a concrete call whose returned status is the
same under a fully-succeeding and an unpin-failing fixup environment. -/
theorem finishRequest_surfaced_but_discarded_witness :
    (finishRequest fenvUnpinFail reqDmaPinned).1 = fenvUnpinFail.unpinStatus ∧
    (sdmmcRequest senvOk fenvOk 0 0 rawZero idleState baseReq []).statusOf =
      (sdmmcRequest senvOk fenvUnpinFail 0 0 rawZero idleState baseReq []).statusOf := by
  have h := finishRequest_surfaced_but_discarded
  exact ⟨h.1 fenvUnpinFail reqDmaPinned (by decide) (by decide) (Or.inl (by decide)) (by decide),
    h.2.2.2.2 senvOk fenvOk fenvUnpinFail 0 0 rawZero idleState baseReq []⟩

/-! ## Descriptor-chain lemmas -/

/-- Splitting an address range at an interior point. -/
theorem addrRange_add (a m n : Nat) :
    addrRange a (m + n) = addrRange a m ++ addrRange (a + m) n := by
  unfold addrRange
  rw [List.range_add, List.map_append, List.map_map]
  simp [Function.comp, Nat.add_assoc]

/-- The extent of an empty chain. -/
theorem chainExtent_nil : chainExtent [] = [] := rfl

/-- The extent of a chain, first descriptor split off. -/
theorem chainExtent_cons (d : AdmaDescriptor) (ds : List AdmaDescriptor) :
    chainExtent (d :: ds) = addrRange d.address (interpLen d) ++ chainExtent ds := by
  simp [chainExtent]

/-- The extent of no runs. -/
theorem runsExtent_nil : runsExtent [] = [] := rfl

/-- The extent of a run list, first run split off. -/
theorem runsExtent_cons (r : Nat × Nat) (rs : List (Nat × Nat)) :
    runsExtent (r :: rs) = addrRange r.1 r.2 ++ runsExtent rs := by
  simp [runsExtent]

/-- The ADMA2 interpretation of an emitted length field: for
`0 < l ≤ 65536` the stored `l % 2^16` denotes `l` itself. -/
theorem interpLen_emitted (addr l : Nat) (attr : Adma2Attr) (h1 : 0 < l) (h2 : l ≤ 65536) :
    interpLen ⟨addr, l % 2 ^ 16, attr⟩ = l := by
  unfold interpLen
  by_cases he : l = 65536
  · subst he
    norm_num
  · have hlt : l < 2 ^ 16 := by omega
    have hm : l % 2 ^ 16 = l := Nat.mod_eq_of_lt hlt
    simp only [hm]
    rw [if_neg (by omega)]

/-- Setting the end attribute touches neither addresses nor lengths nor
the chain's length. -/
theorem setEndOnLast_length (ds : List AdmaDescriptor) :
    (setEndOnLast ds).length = ds.length := by
  induction ds with
  | nil => rfl
  | cons d tl ih =>
    cases tl with
    | nil => rfl
    | cons d2 tl2 => simp [setEndOnLast, ih]

/-- Setting the end attribute preserves the covered extent. -/
theorem chainExtent_setEndOnLast (ds : List AdmaDescriptor) :
    chainExtent (setEndOnLast ds) = chainExtent ds := by
  induction ds with
  | nil => rfl
  | cons d tl ih =>
    cases tl with
    | nil => rfl
    | cons d2 tl2 =>
      show chainExtent (d :: setEndOnLast (d2 :: tl2)) = _
      rw [chainExtent_cons, chainExtent_cons, ih]

/-- Any property of addresses and length fields transfers across
`setEndOnLast`. -/
theorem setEndOnLast_mem {P : Nat → Nat → Prop} :
    ∀ ds : List AdmaDescriptor, (∀ d ∈ ds, P d.address d.length16) →
      ∀ d ∈ setEndOnLast ds, P d.address d.length16 := by
  intro ds
  induction ds with
  | nil => intro _ d hd; cases hd
  | cons d0 tl ih =>
    intro hall d hd
    cases tl with
    | nil =>
      simp only [setEndOnLast, List.mem_singleton] at hd
      subst hd
      exact hall d0 (by simp)
    | cons d2 tl2 =>
      have hd' : d = d0 ∨ d ∈ setEndOnLast (d2 :: tl2) := by
        have hu : setEndOnLast (d0 :: d2 :: tl2) = d0 :: setEndOnLast (d2 :: tl2) := rfl
        rw [hu] at hd
        exact List.mem_cons.mp hd
      rcases hd' with he | hm
      · rw [he]
        exact hall d0 (by simp)
      · exact ih (fun x hx => hall x (List.mem_cons_of_mem _ hx)) d hm

/-- On a chain whose descriptors all carry the plain data attribute,
`setEndOnLast` yields end bits `false, …, false, true`: exactly one end
attribute, on the last entry. -/
theorem setEndOnLast_endBits :
    ∀ ds : List AdmaDescriptor, ds ≠ [] → (∀ d ∈ ds, d.attr = attrData) →
      (setEndOnLast ds).map (fun d => d.attr.endBit) =
        List.replicate (ds.length - 1) false ++ [true] := by
  intro ds
  induction ds with
  | nil => intro h; exact absurd rfl h
  | cons d0 tl ih =>
    intro _ hall
    cases tl with
    | nil => rfl
    | cons d2 tl2 =>
      have hrest := ih (by simp) (fun x hx => hall x (List.mem_cons_of_mem _ hx))
      have hd0 : d0.attr = attrData := hall d0 (by simp)
      show List.map _ (d0 :: setEndOnLast (d2 :: tl2)) = _
      rw [List.map_cons, hrest, hd0]
      have hlen : (d0 :: d2 :: tl2).length - 1 = (d2 :: tl2).length := by simp
      rw [hlen]
      show false :: (List.replicate ((d2 :: tl2).length - 1) false ++ [true]) = _
      rw [show (d2 :: tl2).length = (d2 :: tl2).length - 1 + 1 by simp]
      rw [List.replicate_succ]
      simp

/-- The emission loop of `BuildDmaDescriptor`: on success the emitted
descriptors cover exactly the carried run plus the remaining iterator
extent, in order and without gaps or overlaps; each descriptor carries the
plain data attribute (no end bit yet), denotes a positive length at most
the maximum segment length and — when the boundary quirk is active — never
straddles an alignment boundary; and the chain respects the hardware
count limit. -/
theorem descLoop_spec (qb : Bool) (al maxLen maxCount mask : Nat) (hml : maxLen ≤ 65536) :
    ∀ runs paddr length count ds,
      (∀ r ∈ runs, 0 < r.2) →
      descLoop qb al maxLen maxCount mask runs paddr length count = .ok ds →
      chainExtent ds = addrRange paddr length ++ runsExtent runs ∧
      (∀ d ∈ ds, d.attr = attrData ∧ 0 < interpLen d ∧ interpLen d ≤ maxLen ∧
        (qb = true → d.address / al = (d.address + interpLen d - 1) / al)) ∧
      (ds ≠ [] → count + ds.length ≤ maxCount) := by
  intro runs paddr length count
  induction runs, paddr, length, count using descLoop.induct qb al maxLen maxCount mask with
  | case1 paddr count =>
    intro ds hpos hok
    simp [descLoop] at hok
    subst hok
    simp [chainExtent_nil, runsExtent_nil, addrRange]
  | case2 paddr count p rest =>
    intro ds hpos hok
    have := hpos (p, 0) (by simp)
    simp at this
  | case3 paddr count p l rest hl ih =>
    intro ds hpos hok
    have hok' : descLoop qb al maxLen maxCount mask rest p l count = .ok ds := by
      rw [descLoop.eq_def] at hok
      simpa [hl] using hok
    obtain ⟨h1, h2, h3⟩ := ih ds (fun r hr => hpos r (List.mem_cons_of_mem _ hr)) hok'
    refine ⟨?_, h2, h3⟩
    rw [h1, runsExtent_cons]
    simp [addrRange]
  | case4 runs paddr length count h1 h2 =>
    intro ds hpos hok
    rw [descLoop.eq_def] at hok
    simp [h1, h2] at hok
  | case5 runs paddr length count h1 h2 h3 =>
    intro ds hpos hok
    rw [descLoop.eq_def] at hok
    simp [h1, h2, h3] at hok
  | case6 runs paddr length count h1 h2 h3 h4 =>
    intro ds hpos hok
    rw [descLoop.eq_def] at hok
    simp [h1, h2, h3, h4] at hok
  | case7 runs paddr length count h1 h2 h3 h4 hs ih =>
    intro ds hpos hok
    rw [descLoop.eq_def] at hok
    simp only [dif_neg (by omega : ¬ length = 0), if_neg h2, if_neg h3, if_neg h4,
      dif_pos hs] at hok
    rcases hrec : descLoop qb al maxLen maxCount mask runs
        (paddr + (al * (paddr / al) + al - paddr))
        (length - (al * (paddr / al) + al - paddr)) (count + 1) with e | ds'
    · rw [hrec] at hok; cases hok
    · rw [hrec] at hok
      simp only [Except.map] at hok
      injection hok with hok
      subst hok
      have haddr : paddr &&& mask = paddr := not_not.mp h4
      simp only [haddr]
      -- arithmetic facts about the split point
      have hal : 0 < al := by
        rcases Nat.eq_zero_or_pos al with h0 | h0
        · exact absurd (by simp [h0]) hs.2
        · exact h0
      have hmodp := Nat.mod_lt paddr hal
      have hdmp := Nat.div_add_mod paddr al
      have hfl1 : 0 < al * (paddr / al) + al - paddr := by omega
      have hmono : paddr / al ≤ (paddr + length - 1) / al :=
        Nat.div_le_div_right (by omega)
      have hne' : paddr / al ≠ (paddr + length - 1) / al := by
        intro he
        exact hs.2 (by rw [he])
      have hstep : paddr / al + 1 ≤ (paddr + length - 1) / al := by omega
      have hmul : al * (paddr / al + 1) ≤ al * ((paddr + length - 1) / al) :=
        Nat.mul_le_mul_left al hstep
      have hub : al * ((paddr + length - 1) / al) ≤ paddr + length - 1 := by
        have h := Nat.div_mul_le_self (paddr + length - 1) al
        have h2 : ((paddr + length - 1) / al) * al = al * ((paddr + length - 1) / al) := by ring
        omega
      have hk : al * (paddr / al + 1) = al * (paddr / al) + al := by ring
      have hfl2 : al * (paddr / al) + al - paddr < length := by omega
      set fl := al * (paddr / al) + al - paddr with hfl
      obtain ⟨e1, e2, e3⟩ := ih ds' hpos hrec
      have hinterp : interpLen ⟨paddr, fl % 2 ^ 16, attrData⟩ = fl :=
        interpLen_emitted _ _ _ hfl1 (by omega)
      refine ⟨?_, ?_, ?_⟩
      · rw [chainExtent_cons]
        dsimp only
        rw [hinterp, e1, ← List.append_assoc, ← addrRange_add]
        have hsum : fl + (length - fl) = length := by omega
        rw [hsum]
      · intro d hd
        rcases List.mem_cons.mp hd with he | hm
        · subst he
          refine ⟨rfl, ?_, ?_, ?_⟩
          · rw [hinterp]; exact hfl1
          · rw [hinterp]; omega
          · intro hqb
            dsimp only
            rw [hinterp]
            have hrw : paddr + fl - 1 = al * (paddr / al) + (al - 1) := by omega
            rw [hrw, Nat.mul_add_div hal, Nat.div_eq_of_lt (show al - 1 < al by omega)]
            omega
        · exact e2 d hm
      · intro _
        cases ds' with
        | nil => simp; omega
        | cons x xs =>
          have h := e3 (by simp)
          simp at h ⊢
          omega
  | case8 runs paddr length count h1 h2 h3 h4 hns ih =>
    intro ds hpos hok
    rw [descLoop.eq_def] at hok
    simp only [dif_neg (by omega : ¬ length = 0), if_neg h2, if_neg h3, if_neg h4,
      dif_neg hns] at hok
    rcases hrec : descLoop qb al maxLen maxCount mask runs 0 0 (count + 1) with e | ds'
    · rw [hrec] at hok; cases hok
    · rw [hrec] at hok
      simp only [Except.map] at hok
      injection hok with hok
      subst hok
      have haddr : paddr &&& mask = paddr := not_not.mp h4
      simp only [haddr]
      have hlen0 : 0 < length := by omega
      obtain ⟨e1, e2, e3⟩ := ih ds' hpos hrec
      have hinterp : interpLen ⟨paddr, length % 2 ^ 16, attrData⟩ = length :=
        interpLen_emitted _ _ _ hlen0 (by omega)
      refine ⟨?_, ?_, ?_⟩
      · rw [chainExtent_cons]
        dsimp only
        rw [hinterp, e1]
        simp [addrRange]
      · intro d hd
        rcases List.mem_cons.mp hd with he | hm
        · subst he
          refine ⟨rfl, ?_, ?_, ?_⟩
          · rw [hinterp]; exact hlen0
          · rw [hinterp]; omega
          · intro hqb
            dsimp only
            rw [hinterp]
            rcases Nat.eq_zero_or_pos al with h0 | h0
            · simp [h0]
            · have hAB : al * (paddr / al) = al * ((paddr + length - 1) / al) := by
                by_contra hne
                exact hns ⟨hqb, hne⟩
              exact Nat.eq_of_mul_eq_mul_left h0 hAB
        · exact e2 d hm
      · intro _
        cases ds' with
        | nil => simp; omega
        | cons x xs =>
          have h := e3 (by simp)
          simp at h ⊢
          omega

/-- Concrete evaluation of the builder: a 12 KiB contiguous run under a
4 KiB boundary-alignment quirk yields three 4 KiB descriptors, the last
marked end. -/
theorem chain_quirk_eval : buildDescriptorChain true 4096 65536 512 (2 ^ 32 - 1) [(4096, 12288)] =
    .ok [⟨4096, 4096, attrData⟩, ⟨8192, 4096, attrData⟩,
         ⟨12288, 4096, ⟨true, true, kTypeData⟩⟩] := by
  have hand1 : (4096 : Nat) &&& 4294967295 = 4096 := by decide
  have hand2 : (8192 : Nat) &&& 4294967295 = 8192 := by decide
  have hand3 : (12288 : Nat) &&& 4294967295 = 12288 := by decide
  have s1 : descLoop true 4096 65536 512 (2 ^ 32 - 1) [(4096, 12288)] 0 0 0 =
      descLoop true 4096 65536 512 (2 ^ 32 - 1) [] 4096 12288 0 := by
    rw [descLoop.eq_def]
    norm_num
  have s2 : descLoop true 4096 65536 512 (2 ^ 32 - 1) [] 4096 12288 0 =
      (descLoop true 4096 65536 512 (2 ^ 32 - 1) [] 8192 8192 1).map
        (fun ds => ⟨4096, 4096, attrData⟩ :: ds) := by
    rw [descLoop.eq_def]
    norm_num [hand1]
  have s3 : descLoop true 4096 65536 512 (2 ^ 32 - 1) [] 8192 8192 1 =
      (descLoop true 4096 65536 512 (2 ^ 32 - 1) [] 12288 4096 2).map
        (fun ds => ⟨8192, 4096, attrData⟩ :: ds) := by
    rw [descLoop.eq_def]
    norm_num [hand2]
  have s4 : descLoop true 4096 65536 512 (2 ^ 32 - 1) [] 12288 4096 2 =
      (descLoop true 4096 65536 512 (2 ^ 32 - 1) [] 0 0 3).map
        (fun ds => ⟨12288, 4096, attrData⟩ :: ds) := by
    rw [descLoop.eq_def]
    norm_num [hand3]
  have s5 : descLoop true 4096 65536 512 (2 ^ 32 - 1) [] 0 0 3 = .ok [] := by
    rw [descLoop.eq_def]
    norm_num
  rw [buildDescriptorChain, s1, s2, s3, s4, s5]
  norm_num [Except.map, setEndOnLast]
  exact ⟨rfl, rfl⟩

/-- Concrete evaluation of the builder: a 12 KiB contiguous run with a
64 KiB max segment and no boundary quirk yields one 12 KiB descriptor
marked end. -/
theorem chain_noquirk_eval :
    buildDescriptorChain false 0 65536 512 (2 ^ 32 - 1) [(4096, 12288)] =
      .ok [⟨4096, 12288, ⟨true, true, kTypeData⟩⟩] := by
  have hand1 : (4096 : Nat) &&& 4294967295 = 4096 := by decide
  have s1 : descLoop false 0 65536 512 (2 ^ 32 - 1) [(4096, 12288)] 0 0 0 =
      descLoop false 0 65536 512 (2 ^ 32 - 1) [] 4096 12288 0 := by
    rw [descLoop.eq_def]
    norm_num
  have s2 : descLoop false 0 65536 512 (2 ^ 32 - 1) [] 4096 12288 0 =
      (descLoop false 0 65536 512 (2 ^ 32 - 1) [] 0 0 1).map
        (fun ds => ⟨4096, 12288, attrData⟩ :: ds) := by
    rw [descLoop.eq_def]
    norm_num [hand1]
  have s3 : descLoop false 0 65536 512 (2 ^ 32 - 1) [] 0 0 1 = .ok [] := by
    rw [descLoop.eq_def]
    norm_num
  rw [buildDescriptorChain, s1, s2, s3]
  norm_num [Except.map, setEndOnLast]
  exact ⟨rfl, rfl⟩

/-- C3 counterexample: the claim's second example fails on the code.  A
12 KiB contiguous transfer under a 4 KiB boundary-alignment quirk spans
three 4 KiB-aligned blocks, so `BuildDmaDescriptor` emits exactly three
descriptors (one per boundary crossing), not two; they still sum to
12 KiB. -/
theorem buildDescriptorChain_boundary_counterexample :
    buildDescriptorChain true 4096 65536 512 (2 ^ 32 - 1) [(4096, 12288)] =
      .ok [⟨4096, 4096, attrData⟩, ⟨8192, 4096, attrData⟩,
           ⟨12288, 4096, ⟨true, true, kTypeData⟩⟩] ∧
    ([⟨4096, 4096, attrData⟩, ⟨8192, 4096, attrData⟩,
      ⟨12288, 4096, (⟨true, true, kTypeData⟩ : Adma2Attr)⟩] : List AdmaDescriptor).length = 3 ∧
    (([⟨4096, 4096, attrData⟩, ⟨8192, 4096, attrData⟩,
       ⟨12288, 4096, (⟨true, true, kTypeData⟩ : Adma2Attr)⟩] : List AdmaDescriptor).map
      interpLen).sum = 12288 :=
  ⟨chain_quirk_eval, by decide, by decide⟩

/-- C3 amended: on success the descriptor chain partitions the pinned
extent exactly (the ordered byte cover of the chain equals that of the
iterator's runs), every entry's denoted length is positive and at most the
maximum segment length, exactly one entry carries the end attribute and it
is the last, the chain respects the hardware count limit, and under the
boundary-alignment quirk no entry straddles an alignment boundary (a run
is split at every crossing, one extra entry per crossing — not always
two entries).  The 12 KiB / 64 KiB-segment example yields one 12 KiB
descriptor marked end; the same transfer under a 4 KiB boundary quirk
yields three descriptors (see the counterexample for the claimed two). -/
theorem buildDescriptorChain_spec :
    (∀ (qb : Bool) (al maxLen maxCount mask : Nat) (runs : List (Nat × Nat)) ds,
        maxLen ≤ 65536 → (∀ r ∈ runs, 0 < r.2) →
        buildDescriptorChain qb al maxLen maxCount mask runs = .ok ds →
        chainExtent ds = runsExtent runs ∧
        (∀ d ∈ ds, 0 < interpLen d ∧ interpLen d ≤ maxLen ∧
          (qb = true → d.address / al = (d.address + interpLen d - 1) / al)) ∧
        ds.map (fun d => d.attr.endBit) = List.replicate (ds.length - 1) false ++ [true] ∧
        ds.length ≤ maxCount) ∧
    buildDescriptorChain false 0 65536 512 (2 ^ 32 - 1) [(4096, 12288)] =
      .ok [⟨4096, 12288, ⟨true, true, kTypeData⟩⟩] := by
  refine ⟨?_, chain_noquirk_eval⟩
  · intro qb al maxLen maxCount mask runs ds hml hpos hok
    unfold buildDescriptorChain at hok
    rcases hloop : descLoop qb al maxLen maxCount mask runs 0 0 0 with e | ds0
    · rw [hloop] at hok; cases hok
    · rw [hloop] at hok
      cases ds0 with
      | nil => simp at hok
      | cons d0 tl =>
        injection hok with hok
        subst hok
        obtain ⟨e1, e2, e3⟩ :=
          descLoop_spec qb al maxLen maxCount mask hml runs 0 0 0 (d0 :: tl) hpos hloop
        refine ⟨?_, ?_, ?_, ?_⟩
        · rw [chainExtent_setEndOnLast, e1]
          simp [addrRange]
        · intro d hd
          have htrans := setEndOnLast_mem (P := fun a l =>
              (0 < if l = 0 then 65536 else l) ∧
              ((if l = 0 then 65536 else l) ≤ maxLen) ∧
              (qb = true → a / al = (a + (if l = 0 then 65536 else l) - 1) / al))
            (d0 :: tl) ?_ d hd
          · exact ⟨htrans.1, htrans.2.1, htrans.2.2⟩
          · intro x hx
            obtain ⟨_, hx1, hx2, hx3⟩ := e2 x hx
            exact ⟨hx1, hx2, hx3⟩
        · rw [setEndOnLast_length]
          exact setEndOnLast_endBits (d0 :: tl) (by simp) (fun x hx => (e2 x hx).1)
        · rw [setEndOnLast_length]
          have h := e3 (by simp)
          omega

/-- C3 witness for the amended claim: the general invariants applied to
the concrete no-quirk 12 KiB example — its single end-marked descriptor
covers exactly the pinned extent within the hardware chain limit. -/
theorem buildDescriptorChain_spec_witness :
    chainExtent [⟨4096, 12288, ⟨true, true, kTypeData⟩⟩] = runsExtent [(4096, 12288)] ∧
    ([(⟨4096, 12288, ⟨true, true, kTypeData⟩⟩ : AdmaDescriptor)] : List AdmaDescriptor).length
      ≤ 512 := by
  have h := buildDescriptorChain_spec.1 false 0 65536 512 (2 ^ 32 - 1) [(4096, 12288)]
    [⟨4096, 12288, ⟨true, true, kTypeData⟩⟩] (by norm_num)
    (by intro r hr; have he := List.mem_singleton.mp hr; subst he; decide)
    buildDescriptorChain_spec.2
  exact ⟨h.1, h.2.2.2⟩

end Sdhci